import Mathlib

/-!
Verification of the paginated fetch-and-align pipeline of the `test_scripts`
repository, a collection of batch scripts that paginate through a seller API,
index the fetched items by a key, and align spreadsheet key columns against
those items to produce rows of cell values.

Shallow embedding conventions:
* JSON items are modelled as structures whose fields are `Option`-typed scalar
  values (a missing field and an explicit `null` both become `none`);
* Python floats are modelled as exact rationals (`ℚ`);
* network interaction is modelled by passing the finite series of server
  responses as an explicit list argument that the fetch loop consumes in
  request order;
* Python `dict` insertion (`d[k] = v`) is modelled by `pyInsert` on an
  association list, which preserves first-insertion key order and makes the
  last write to a key win, exactly like a CPython dict;
* `str.strip()` is modelled by `pyStrip`, `math.ceil` by `Int.ceil`.
-/

/-! ## Generic dictionary and list helpers -/

/-- Python's `str.strip()`: remove whitespace from both ends. (Implemented
over the character list so that concrete instances reduce inside the
kernel.) -/
def pyStrip (s : String) : String :=
  ⟨((s.data.dropWhile Char.isWhitespace).reverse.dropWhile
      Char.isWhitespace).reverse⟩

/-- Python dict assignment `d[k] = v` on an association list: replace the
value of an existing key in place, otherwise append the new binding at the
end. Keeps first-insertion key order; the last write to a key wins. -/
def pyInsert {K V : Type} [DecidableEq K] :
    List (K × V) → K → V → List (K × V)
  | [], k, v => [(k, v)]
  | (k', v') :: d, k, v =>
      if k' = k then (k', v) :: d else (k', v') :: pyInsert d k v

/-- `d.get(k)` / `k in d` on an association list. -/
def lookupKey {K V : Type} [DecidableEq K] : List (K × V) → K → Option V
  | [], _ => none
  | (k', v) :: d, k => if k' = k then some v else lookupKey d k

/-- Specification-side helper: the last element of `l` satisfying `p`
(used to state last-write-wins / first-write-wins contrasts). -/
def lastMatch {α : Type} (p : α → Bool) (l : List α) : Option α :=
  l.reverse.find? p

/-- Specification-side helper: the index of the last occurrence of `a`. -/
def lastIndexOf {α : Type} [DecidableEq α] (a : α) : List α → Option Nat
  | [] => none
  | b :: rest =>
      match lastIndexOf a rest with
      | some j => some (j + 1)
      | none => if b = a then some 0 else none

/-- `chunks(lst, n)` of `014.Analytics_base.py` (and the identical inline
comprehensions of `006.Stock_FBO_FBS.py` line 99 and
`013.Price_logistic.py` lines 55-57): `lst[i:i+n]` for
`i in range(0, len(lst), n)`. For `n = 0` Python's `range` raises; the model
returns `[]` there, and every theorem about `chunks` assumes `0 < n`. -/
def chunks {α : Type} (n : Nat) (l : List α) : List (List α) :=
  if _h : n = 0 then []
  else
    match l with
    | [] => []
    | a :: ls => (a :: ls).take n :: chunks n ((a :: ls).drop n)
termination_by l.length
decreasing_by
  have h1 : 0 < n := Nat.pos_of_ne_zero _h
  simp only [List.length_drop, List.length_cons]
  omega

/-! ## Pagination (`C1`, `C7`)

The remote read API is modelled by the finite series of responses it returns,
consumed by the loop in request order. -/

namespace ProductOfferId

/-- One page of `POST /v3/product/list` as consumed by
`001.Product_offer_id.py::get_all_products`: the `result` object holding
`items` and the continuation token `last_id` (`result.get('last_id', "")`,
so a missing token is the empty string). -/
structure CursorPage (I : Type) where
  items : List I
  last_id : String

/-- The pagination loop of `001.Product_offer_id.py::get_all_products`
(lines 28-66), given the series of successful pages the server returns.
Per iteration: extend the accumulator with the page's items; stop if the page
has fewer than `limit` items, otherwise stop if the returned `last_id` is
empty, otherwise continue with the next response. An exhausted series means
the server gave no further answer, which the real loop cannot observe; the
model returns the accumulator there and the well-formedness hypotheses of the
theorems exclude that case. -/
def get_all_products {I : Type} (limit : Nat) :
    List (CursorPage I) → List I → List I
  | [], acc => acc
  | p :: rest, acc =>
      let acc' := acc ++ p.items
      if p.items.length < limit then acc'
      else if p.last_id = "" then acc'
      else get_all_products limit rest acc'

/-- A finite series of pages as the cursor protocol of
`001.Product_offer_id.py` would produce it: every page before the last is
full (at least `limit` items, so the `< limit` stop does not fire) and
carries a non-empty continuation token; the final page is short or carries an
empty token. -/
def wfCursorSeries {I : Type} (limit : Nat) : List (CursorPage I) → Prop
  | [] => False
  | [p] => p.items.length < limit ∨ p.last_id = ""
  | p :: rest => limit ≤ p.items.length ∧ p.last_id ≠ "" ∧ wfCursorSeries limit rest

end ProductOfferId

namespace OzonApiService

/-- The pagination loop of
`ozon_app/servises/ozon_api_servise.py::OzonAPIService.get_all_products`
(lines 12-55): same cursor idiom as `001.Product_offer_id.py`, with the two
stop conditions checked together (`len(products) < limit or not
result.get("last_id")`). -/
def get_all_products {I : Type} (limit : Nat) :
    List (ProductOfferId.CursorPage I) → List I → List I
  | [], acc => acc
  | p :: rest, acc =>
      let acc' := acc ++ p.items
      if p.items.length < limit ∨ p.last_id = "" then acc'
      else get_all_products limit rest acc'

end OzonApiService

namespace FboOborachivaemost

/-- One answer of `POST /v1/analytics/turnover/stocks` as consumed by
`005.FBO_Oborachivaemost.py::get_all_ozon_data`: either a successful JSON
body, of which the loop reads `items`, or a `requests.RequestException`. -/
inductive OzonResponse (I : Type) where
  | success (items : List I)
  | failure
deriving DecidableEq

/-- Observable side effects of one run of `get_all_ozon_data`: the payload
offset of each request issued, and each `time.sleep` call with its duration
(65 seconds between full pages, 60 seconds before a retry). -/
inductive Ev where
  | request (offset : Nat)
  | sleep (secs : Nat)
deriving DecidableEq

/-- Outcome of a run: the returned `all_items`, the re-raised
`RequestException`, or a run that exhausted the modelled response series
while still looping (unreachable under the theorems' hypotheses). -/
inductive RunOutcome (I : Type) where
  | ok (items : List I)
  | raised
  | starved
deriving DecidableEq

/-- The fetch loop of `005.FBO_Oborachivaemost.py::get_all_ozon_data`
(lines 46-90) over the series of responses the server returns, threading the
loop state: payload `offset`, `retry_count` (never reset on success),
accumulated `all_items`, and the event trace. Per iteration the loop posts
`\x7b"limit": 1000, "offset": offset\x7d`; on success it stops on an empty
page, otherwise extends the accumulator, advances the offset by the number of
items received, stops on a short page, and sleeps 65 seconds before the next
request; on failure it increments `retry_count`, re-raises once that count
exceeds `maxRetries`, and otherwise sleeps 60 seconds and retries without
touching offset or accumulator. -/
def get_all_ozon_data {I : Type} (maxRetries : Nat) :
    List (OzonResponse I) → Nat → Nat → List I → List Ev →
    RunOutcome I × List Ev
  | [], _, _, _, tr => (.starved, tr)
  | r :: rest, offset, retry_count, acc, tr =>
      let tr' := tr ++ [Ev.request offset]
      match r with
      | .success items =>
          if items.isEmpty then (.ok acc, tr')
          else
            let acc' := acc ++ items
            let offset' := offset + items.length
            if items.length < 1000 then (.ok acc', tr')
            else get_all_ozon_data maxRetries rest offset' retry_count acc'
                   (tr' ++ [Ev.sleep 65])
      | .failure =>
          if maxRetries < retry_count + 1 then (.raised, tr')
          else get_all_ozon_data maxRetries rest offset (retry_count + 1) acc
                 (tr' ++ [Ev.sleep 60])

/-- A finite series of pages as the offset protocol of
`005.FBO_Oborachivaemost.py` would produce it: every page before the last
has at least 1000 items (so neither stop fires), and the final page is short
(possibly empty). -/
def wfOffsetSeries {I : Type} : List (List I) → Prop
  | [] => False
  | [p] => p.length < 1000
  | p :: rest => 1000 ≤ p.length ∧ wfOffsetSeries rest

/-- Whether a response is a `RequestException`. -/
def OzonResponse.isFailure {I : Type} : OzonResponse I → Bool
  | .failure => true
  | .success _ => false

/-- Whether a response is a successful page. -/
def OzonResponse.isSuccess {I : Type} : OzonResponse I → Bool
  | .failure => false
  | .success _ => true

/-- One item of the turnover endpoint as used by
`005.FBO_Oborachivaemost.py::update_google_sheets`. -/
structure TurnItem where
  offer_id : Option String
  ads : Option ℚ
  idc : Option ℚ
  turnover_grade : Option String
deriving DecidableEq

/-- The per-key item selection of
`005.FBO_Oborachivaemost.py::update_google_sheets` line 114:
`next((item for item in items if item.get('offer_id') == offer_id), None)`,
i.e. the first item in fetch order whose `offer_id` equals the key. -/
def pick_item (items : List TurnItem) (offer_id : String) : Option TurnItem :=
  items.find? (fun it => it.offer_id == some offer_id)

end FboOborachivaemost

/-! ## `006.Stock_FBO_FBS.py` (`C2`, `C8`, `C10`) -/

namespace StockFboFbs

/-- One stock record inside an item of `/v4/product/info/stocks`. -/
structure Stock where
  type : String
  present : ℤ
deriving DecidableEq

/-- One item of `/v4/product/info/stocks`: `product_id` plus its `stocks`
list. -/
structure StockItem where
  product_id : ℤ
  stocks : List Stock
deriving DecidableEq

/-- `006.Stock_FBO_FBS.py` line 76:
`stock_dict = \x7bstr(item['product_id']): item['stocks'] for item in
data['items']\x7d` — a dict comprehension, so later items overwrite earlier
ones for a duplicated `product_id`. -/
def stock_dict (items : List StockItem) : List (String × List Stock) :=
  items.foldl (fun d it => pyInsert d (toString it.product_id) it.stocks) []

/-- The FBO/FBS sums of one `stocks` list (`006.Stock_FBO_FBS.py`
lines 81-88): sum `present` over entries of type `'fbo'` and `'fbs'`
respectively; other types are ignored. -/
def fbo_fbs_sums (stocks : List Stock) : ℤ × ℤ :=
  stocks.foldl
    (fun p st =>
      if st.type = "fbo" then (p.1 + st.present, p.2)
      else if st.type = "fbs" then (p.1, p.2 + st.present)
      else p)
    (0, 0)

/-- `006.Stock_FBO_FBS.py::update_google_sheet` (lines 72-96): for each
`product_id` of the sheet, look its stringified id up in `stock_dict`
(missing ids give the empty stock list, hence sums of `0`), and emit the
one-cell rows for columns R (FBO) and S (FBS). -/
def update_google_sheet (items : List StockItem) (product_ids : List ℤ) :
    List (List ℤ) × List (List ℤ) :=
  let d := stock_dict items
  (product_ids.map
     (fun pid => [(fbo_fbs_sums ((lookupKey d (toString pid)).getD [])).1]),
   product_ids.map
     (fun pid => [(fbo_fbs_sums ((lookupKey d (toString pid)).getD [])).2]))

/-- `006.Stock_FBO_FBS.py::read_api_credentials` (lines 6-13): no count
check at all — the four lines are indexed directly, so a file with fewer
than four physical lines fails with an `IndexError` (modelled as `none`),
and blank lines count like any other line. -/
def read_api_credentials (ls : List String) :
    Option (String × String × String × String) :=
  match ls with
  | l0 :: l1 :: l2 :: l3 :: _ => some (pyStrip l0, pyStrip l1, pyStrip l2, pyStrip l3)
  | _ => none

end StockFboFbs

/-! ## `008.FBO_Upravlenie_stocks.py` (`C2`, `C3`, `C6`) -/

namespace UpravlenieStocks

/-- One item of `/v1/analytics/stocks` as read by
`OzonAnalyticsStocks.build_export_rows`. `sku` holds `str(it.get("sku"))`
when the raw value is present and `none` otherwise; the numeric fields hold
the results of `_as_int_or_none` / `_as_float_or_none` (`none` for missing,
null, or unparsable values). -/
structure Item where
  sku : Option String
  days_without_sales : Option ℤ
  idc : Option ℤ
  ads : Option ℚ
  turnover_grade : Option String
  return_to_seller_stock_count : Option ℤ
deriving DecidableEq

/-- `OzonAnalyticsStocks.TURNOVER_GRADE_RU` (lines 11-27). -/
def TURNOVER_GRADE_RU : String → Option String
  | "TURNOVER_GRADE_NONE" => some "Нет статуса ликвидности"
  | "DEFICIT" => some "Дефицитный"
  | "POPULAR" => some "Очень популярный"
  | "ACTUAL" => some "Популярный"
  | "SURPLUS" => some "Избыточный"
  | "NO_SALES" => some "Без продаж"
  | "WAS_NO_SALES" => some "Был без продаж"
  | "RESTRICTED_NO_SALES" => some "Без продаж, ограничен"
  | "COLLECTING_DATA" => some "Сбор данных"
  | "WAITING_FOR_SUPPLY" => some "Ожидаем поставки"
  | "WAS_DEFICIT" => some "Был дефицитным"
  | "WAS_POPULAR" => some "Был очень популярным"
  | "WAS_ACTUAL" => some "Был популярным"
  | "WAS_SURPLUS" => some "Был избыточным"
  | "UNSPECIFIED" => some "Не определено"
  | _ => none

/-- `OzonAnalyticsStocks.TURNOVER_GRADE_DESCRIPTIONS` (lines 30-46). -/
def TURNOVER_GRADE_DESCRIPTIONS : String → Option String
  | "TURNOVER_GRADE_NONE" => some ""
  | "DEFICIT" => some "Хватит до 28 дней."
  | "POPULAR" => some "Хватит на 28–56 дней."
  | "ACTUAL" => some "Хватит на 56–120 дней."
  | "SURPLUS" => some "Хватит более чем на 120 дней."
  | "NO_SALES" => some "Нет продаж последние 28 дней."
  | "WAS_NO_SALES" => some "Не было продаж и остатков последние 28 дней"
  | "RESTRICTED_NO_SALES" => some "Запрет FBO. Не было продаж более 120 дней"
  | "COLLECTING_DATA" => some "Собираем данные в течение 60 дней после поставки"
  | "WAITING_FOR_SUPPLY" => some "Нет остатков. Сделайте поставку для начала сбора данных"
  | "WAS_DEFICIT" => some "Нет остатков. Товар был дефицитным последние 56 дней"
  | "WAS_POPULAR" => some "Нет остатков. Товар был очень популярным последние 56 дней"
  | "WAS_ACTUAL" => some "Нет остатков. Товар был популярным последние 56 дней"
  | "WAS_SURPLUS" => some "Нет остатков. Товар был избыточным последние 56 дней"
  | "UNSPECIFIED" => some "Нет данных"
  | _ => none

/-- `OzonAnalyticsStocks.turnover_grade_ru` (lines 159-160):
`TURNOVER_GRADE_RU.get(grade) if grade else None`, where a falsy grade is
`None` or the empty string. -/
def turnover_grade_ru (grade : Option String) : Option String :=
  match grade with
  | none => none
  | some g => if g = "" then none else TURNOVER_GRADE_RU g

/-- `OzonAnalyticsStocks.describe_turnover_grade` (lines 162-163). -/
def describe_turnover_grade (grade : Option String) : Option String :=
  match grade with
  | none => none
  | some g => if g = "" then none else TURNOVER_GRADE_DESCRIPTIONS g

/-- `OzonAnalyticsStocks._to_sheet_cell` (lines 104-107) applied to an
integer-or-`None` value: `None` becomes the empty cell, anything else its
string form — in particular `0` becomes `"0"`. -/
def to_sheet_cell_int (value : Option ℤ) : String :=
  match value with
  | none => ""
  | some z => toString z

/-- `OzonAnalyticsStocks._to_sheet_cell` applied to a string-or-`None`
value. -/
def to_sheet_cell_str (value : Option String) : String :=
  match value with
  | none => ""
  | some s => s

/-- `OzonAnalyticsStocks._to_sheet_cell_blank_if_zero` (lines 109-114):
both `None` and `0` become the empty cell. -/
def to_sheet_cell_blank_if_zero (value : Option ℤ) : String :=
  match value with
  | none => ""
  | some z => if z = 0 then "" else toString z

/-- Python's `round` to an integer: round half to even (floats are modelled
as exact rationals). -/
def roundHalfEven (x : ℚ) : ℤ :=
  let f := Int.floor x
  let r := x - (f : ℚ)
  if r < 1 / 2 then f
  else if 1 / 2 < r then f + 1
  else if Even f then f else f + 1

/-- Python's `round(x, 2)` on the model rationals. -/
def round2 (x : ℚ) : ℚ := (roundHalfEven (x * 100) : ℚ) / 100

/-- Python's `f"<v>:.2f"` formatting of a value that already has at most two
decimal places: sign, integer part, dot, and a two-digit fraction. -/
def format2 (x : ℚ) : String :=
  let n := roundHalfEven (x * 100)
  let m := n.natAbs
  (if n < 0 then "-" else "")
    ++ toString (m / 100) ++ "."
    ++ (if m % 100 < 10 then "0" else "") ++ toString (m % 100)

/-- The first pass of `OzonAnalyticsStocks.build_export_rows`
(lines 165-183): one fold over the fetched items building
`rep_item` (insert only if the SKU is absent, so the first item per SKU is
kept) and `returns_sum` (sum of the parsed
`return_to_seller_stock_count` values per SKU; items whose value does not
parse contribute nothing). Items whose stringified SKU is missing or empty
are skipped. -/
def build_maps_step (maps : List (String × Item) × List (String × ℤ))
    (it : Item) : List (String × Item) × List (String × ℤ) :=
  match it.sku with
  | none => maps
  | some s =>
      if s = "" then maps
      else
        let rep :=
          if (lookupKey maps.1 s).isSome then maps.1
          else pyInsert maps.1 s it
        let rsum :=
          match it.return_to_seller_stock_count with
          | none => maps.2
          | some v =>
              match lookupKey maps.2 s with
              | none => pyInsert maps.2 s v
              | some old => pyInsert maps.2 s (old + v)
        (rep, rsum)

/-- The fold of `build_maps_step` over the fetched items, started from two
empty dicts. -/
def build_maps (items : List Item) :
    List (String × Item) × List (String × ℤ) :=
  items.foldl build_maps_step ([], [])

/-- The per-SKU row of `OzonAnalyticsStocks.build_export_rows`
(lines 187-218): columns AD (days without sales, `0` shown as `"0"`),
AE (idc), AF (returns to seller, `0` hidden), AG (liquidity grade, short
Russian label), AH (grade description), AI (ADS rounded to two decimals,
but a zero-rounded value shown as `"0"`). A SKU absent from `rep_item`
reads all fields through `rep_item.get(sku, \x7b\x7d)`, i.e. as `none`. -/
def export_row (rep : List (String × Item)) (rsum : List (String × ℤ))
    (sku : String) : List String :=
  let base := lookupKey rep sku
  let days_without_sales := base.bind Item.days_without_sales
  let idc := base.bind Item.idc
  let ads := base.bind Item.ads
  let turnover_code := base.bind Item.turnover_grade
  let grade_ru := turnover_grade_ru turnover_code
  let grade_desc := describe_turnover_grade turnover_code
  let rts_sum := lookupKey rsum sku
  let ad_days := to_sheet_cell_int days_without_sales
  let ae_idc := to_sheet_cell_int idc
  let af_returns := to_sheet_cell_blank_if_zero rts_sum
  let ag_grade_ru := to_sheet_cell_str grade_ru
  let ah_grade_desc := to_sheet_cell_str grade_desc
  let ai_ads :=
    match ads with
    | none => ""
    | some a =>
        let rounded := round2 a
        if rounded = 0 then "0" else format2 rounded
  [ad_days, ae_idc, af_returns, ag_grade_ru, ah_grade_desc, ai_ads]

/-- `OzonAnalyticsStocks.build_export_rows` (lines 165-220): build the two
maps, then emit one row per input SKU, in input order. -/
def build_export_rows (skus : List String) (items : List Item) :
    List (List String) :=
  let maps := build_maps items
  skus.map (export_row maps.1 maps.2)

/-- `OzonAnalyticsStocks.get_sku_list_from_sheet` (lines 120-126): the
stripped, non-blank cells of column B from row 5 on. -/
def get_sku_list_from_sheet (col : List String) : List String :=
  ((col.drop 4).map pyStrip).filter (fun s => s ≠ "")

end UpravlenieStocks

/-- One spreadsheet cell value as produced by the row builders: the scripts
emit strings, Python ints, and Python floats (modelled as rationals). -/
inductive Cell where
  | str (s : String)
  | int (z : ℤ)
  | rat (q : ℚ)
deriving DecidableEq

/-! ## `test_scripts/013.Price_logistic.py` (`C2`, `C3`, `C4`) -/

namespace PriceLogistic

/-- The `price` sub-object of a `/v5/product/info/prices` item. -/
structure PriceBlock where
  auto_action_enabled : Option Bool
  old_price : Option ℚ
  min_price : Option ℚ
  price : Option ℚ
  marketing_seller_price : Option ℚ
  marketing_price : Option ℚ
  net_price : Option ℚ
deriving DecidableEq

/-- The `commissions` sub-object. -/
structure CommBlock where
  sales_percent_fbo : Option ℚ
  sales_percent_fbs : Option ℚ
  fbo_direct_flow_trans_max_amount : Option ℚ
  fbs_direct_flow_trans_max_amount : Option ℚ
  fbo_deliv_to_customer_amount : Option ℚ
  fbs_deliv_to_customer_amount : Option ℚ
  fbo_return_flow_amount : Option ℚ
  fbs_return_flow_amount : Option ℚ
deriving DecidableEq

/-- The `price_indexes` sub-object. -/
structure IdxBlock where
  color_index : Option String
deriving DecidableEq

/-- One entry of `marketing_actions.actions`; `none` at the outer level
models a non-dict entry (the `isinstance(action, dict)` guard). -/
structure MAction where
  title : Option String
deriving DecidableEq

/-- The `marketing_actions` sub-object. -/
structure MABlock where
  actions : Option (List (Option MAction))
deriving DecidableEq

/-- One item of `/v5/product/info/prices`; each sub-object is `none` when
missing or JSON null (the script collapses both through its
`... if ... is not None else` defaults). -/
structure PriceItem where
  product_id : Option ℤ
  price : Option PriceBlock
  commissions : Option CommBlock
  price_indexes : Option IdxBlock
  marketing_actions : Option MABlock
  acquiring : Option ℚ
deriving DecidableEq

/-- `013.Price_logistic.py::safe_float` (lines 30-35): `None` and
unparsable values become `0.0`. -/
def safe_float (value : Option ℚ) : ℚ := value.getD 0

/-- `color_index_mapping` of `prepare_data_for_sheet` (lines 81-86).
The label strings are copied byte-for-byte from the repository file, which
stores them in a mangled encoding. -/
def color_index_mapping : String → Option String
  | "WITHOUT_INDEX" => some "–ù–ï–¢"
  | "GREEN" => some "–•–û–†–û–®–ò–ô"
  | "YELLOW" => some "–°–†–ï–î–ù–ò–ô"
  | "RED" => some "–ü–õ–û–•–û–ô"
  | _ => none

/-- `EXCLUDED_ACTIONS` of `prepare_data_for_sheet` (lines 88-101), copied
byte-for-byte from the repository file. -/
def EXCLUDED_ACTIONS : List String :=
  ["–†–∞—Å—Å—Ä–æ—á–∫–∞ 0-0-6 –Ω–∞ –≤—Å—ë –†–§ —Ç–æ–≤–∞—Ä—ã",
   "WOW-–ë–≠–ö_–ö—ç—à–±—ç–∫ –Ω–∞ –ø–æ–∫—É–ø–∫—É Ozon Fashion —Å–ø–∏—Å–∞–Ω–∏–µ 2.0",
   "–í–ê–£ –±–∞–ª–ª—ã 50% 9 –≤–æ–ª–Ω–∞ 3-—è –≤–æ–ª–Ω–∞ (–æ—Å–Ω–æ–≤–Ω–∞—è)",
   "Ozon Fashion + Jardin 500 –≤–∞—É –±–∞–ª–ª–æ–≤  —Å–ø–∏—Å–∞–Ω–∏–µ",
   "Ozon Fashion + Jardin 1000 —Å–ø–∏—Å–∞–Ω–∏–µ",
   "[Ozon Fashion + Jardin 10 000 —Å–ø–∏—Å–∞–Ω–∏–µ",
   "Ozon Fashion + Jardin —Å–ø–∏—Å–∞–Ω–∏–µ 1 –º–ª–Ω",
   "Ozon Fashion + Jardin —Å–ø–∏—Å–∞–Ω–∏–µ 1 –º–ª–Ω –≤—Ç–æ—Ä–∞—è",
   "Ozon Fashion + Jardin_–ó–∞–ø–∞—Å–Ω–∞—è –∞–∫—Ü–∏—è 500 –≤–∞—É –±–∞–ª–ª–æ–≤ —Å–ø–∏—Å–∞–Ω–∏–µ",
   "Ozon Fashion + Jardin_–ó–∞–ø–∞—Å–Ω–∞—è –∞–∫—Ü–∏—è 1000 –≤–∞—É –±–∞–ª–ª–æ–≤ —Å–ø–∏—Å–∞–Ω–∏–µ",
   "Ozon Fashion + Jardin_–ó–∞–ø–∞—Å–Ω–∞—è –∞–∫—Ü–∏—è 10 000 –≤–∞—É –±–∞–ª–ª–æ–≤ —Å–ø–∏—Å–∞–Ω–∏–µ",
   "Ozon Fashion + Jardin 10 000 —Å–ø–∏—Å–∞–Ω–∏–µ"]

/-- The `auto_action` cell markers of `prepare_data_for_sheet` line 116,
copied byte-for-byte from the repository file. -/
def AUTO_ACTION_ON : String := "üî•"

/-- The marker emitted when `auto_action_enabled` is falsy. -/
def AUTO_ACTION_OFF : String := "üîï"

/-- The item row of `prepare_data_for_sheet` (lines 105-167), built for a
`product_id` found in `data`: 24 cells for the spreadsheet columns ET..FQ.
`math.ceil` is `Int.ceil`; Python float truthiness (`if msp and pct`) is
`≠ 0`. -/
def price_row (item : PriceItem) (dq1_value : ℚ) : List Cell :=
  let mactions : List (Option MAction) :=
    match item.marketing_actions with
    | none => []
    | some mb => mb.actions.getD []
  let auto_action :=
    if (item.price.bind PriceBlock.auto_action_enabled).getD false
    then AUTO_ACTION_ON else AUTO_ACTION_OFF
  let old_price := safe_float (item.price.bind PriceBlock.old_price)
  let min_price := safe_float (item.price.bind PriceBlock.min_price)
  let price := safe_float (item.price.bind PriceBlock.price)
  let marketing_seller_price :=
    safe_float (item.price.bind PriceBlock.marketing_seller_price)
  let marketing_price := safe_float (item.price.bind PriceBlock.marketing_price)
  let net_price := safe_float (item.price.bind PriceBlock.net_price)
  let color_index :=
    (color_index_mapping
        ((item.price_indexes.bind IdxBlock.color_index).getD "WITHOUT_INDEX")).getD
      "WITHOUT_INDEX"
  let acquiring : ℤ := Int.ceil (safe_float item.acquiring)
  let sales_percent_fbo :=
    safe_float (item.commissions.bind CommBlock.sales_percent_fbo)
  let sales_percent_fbs :=
    safe_float (item.commissions.bind CommBlock.sales_percent_fbs)
  let fbo_transport : ℤ :=
    Int.ceil (safe_float (item.commissions.bind CommBlock.fbo_direct_flow_trans_max_amount))
  let fbs_transport : ℤ :=
    Int.ceil (safe_float (item.commissions.bind CommBlock.fbs_direct_flow_trans_max_amount))
  let fbo_delivery : ℤ :=
    Int.ceil (safe_float (item.commissions.bind CommBlock.fbo_deliv_to_customer_amount))
  let fbs_delivery : ℤ :=
    Int.ceil (safe_float (item.commissions.bind CommBlock.fbs_deliv_to_customer_amount))
  let dr_value : ℤ :=
    if marketing_seller_price ≠ 0 ∧ sales_percent_fbo ≠ 0
    then Int.ceil (marketing_seller_price * sales_percent_fbo / 100) else 0
  let ds_value : ℤ :=
    if marketing_seller_price ≠ 0 ∧ sales_percent_fbs ≠ 0
    then Int.ceil (marketing_seller_price * sales_percent_fbs / 100) else 0
  let dt_value : ℤ :=
    Int.ceil ((acquiring + dr_value + fbo_transport + fbo_delivery : ℤ) : ℚ)
  let du_value : ℤ :=
    Int.ceil ((acquiring : ℚ) + (fbs_transport : ℚ) + (fbs_delivery : ℚ)
      + (ds_value : ℚ) + dq1_value)
  let action_titles : List String :=
    mactions.filterMap (fun a =>
      a.bind (fun m =>
        let t := pyStrip (m.title.getD "")
        if t ≠ "" ∧ t ∉ EXCLUDED_ACTIONS
        then some ("[" ++ t ++ "]") else none))
  let action_title :=
    if action_titles.isEmpty then "" else String.intercalate " " action_titles
  let actions_count : ℤ := action_titles.length
  [Cell.int acquiring, Cell.rat sales_percent_fbo, Cell.int dr_value,
   Cell.int fbo_transport, Cell.int fbo_delivery,
   Cell.rat (safe_float (item.commissions.bind CommBlock.fbo_return_flow_amount)),
   Cell.rat sales_percent_fbs, Cell.int ds_value, Cell.int fbs_transport,
   Cell.int fbs_delivery,
   Cell.rat (safe_float (item.commissions.bind CommBlock.fbs_return_flow_amount)),
   Cell.int dt_value, Cell.int du_value,
   Cell.str "", Cell.str auto_action, Cell.rat old_price, Cell.rat min_price,
   Cell.rat price, Cell.rat marketing_seller_price, Cell.rat marketing_price,
   Cell.str color_index, Cell.str action_title, Cell.int actions_count,
   Cell.rat net_price]

/-- `013.Price_logistic.py::prepare_data_for_sheet` (lines 80-173): one row
per `product_id` of the sheet, in sheet order; an id present in `data` gets
its 24-cell item row, a missing id gets the default row `[''] * 27`
(line 169). The script never stores `None` in `data`, so the
`data[product_id] is not None` guard is equivalent to membership. -/
def prepare_data_for_sheet (data : List (ℤ × PriceItem))
    (product_ids : List ℤ) (dq1_value : ℚ) : List (List Cell) :=
  product_ids.map (fun product_id =>
    match lookupKey data product_id with
    | some item => price_row item dq1_value
    | none => List.replicate 27 (Cell.str ""))

/-- The dict accumulation of `013.Price_logistic.py::get_ozon_prices`
(lines 46-78): over the per-chunk responses in request order,
`all_prices[item['product_id']] = item` for every non-`None` item carrying a
`product_id` — a plain dict assignment, so the last-fetched item per id
wins. -/
def price_insert (d : List (ℤ × PriceItem)) (it : Option PriceItem) :
    List (ℤ × PriceItem) :=
  match it with
  | none => d
  | some item =>
      match item.product_id with
      | none => d
      | some pid => pyInsert d pid item

/-- The nested fold of `price_insert` over the per-chunk responses. -/
def get_ozon_prices (responses : List (List (Option PriceItem))) :
    List (ℤ × PriceItem) :=
  responses.foldl (fun d items => items.foldl price_insert d) []

/-- `013.Price_logistic.py::read_api_credentials` (lines 8-18): strip,
drop blank lines, and require at least four remaining lines. -/
def read_api_credentials (ls : List String) :
    Except String (String × String × String × String) :=
  match (ls.map pyStrip).filter (fun s => s ≠ "") with
  | l0 :: l1 :: l2 :: l3 :: _ => .ok (l0, l1, l2, l3)
  | _ => .error "API file must contain 4 lines"

end PriceLogistic

/-! ## `014.Analytics_base.py` (`C4`, `C8`, `C9`) -/

namespace AnalyticsBase

/-- The parsed credential file of `014.Analytics_base.py`. -/
structure Config where
  client_id : String
  api_key : String
  spreadsheet_id : String
  sheet_name : String
deriving DecidableEq

/-- `014.Analytics_base.py::read_api_config` (lines 8-19): every line is
stripped but blank lines are NOT dropped; the check `len(lines) < 4` counts
physical lines, blank or not. -/
def read_api_config (ls : List String) : Except String Config :=
  match ls.map pyStrip with
  | l0 :: l1 :: l2 :: l3 :: _ => .ok ⟨l0, l1, l2, l3⟩
  | _ => .error "File (1)API.txt must contain 4 lines"

/-- One item of `/v1/analytics/product-queries`. `sku` holds the raw `sku`
value stringified when it is truthy, `none` when missing or falsy
(the comprehension guard `if it.get('sku')`). -/
structure QueryItem where
  sku : Option String
  unique_search_users : Option ℚ
  position : Option ℚ
  unique_view_users : Option ℚ
  view_conversion : Option ℚ
  gmv : Option ℚ
deriving DecidableEq

/-- `014.Analytics_base.py` line 129:
`sku_data = \x7bstr(it.get('sku', '')).strip(): it for it in all_items if
it.get('sku')\x7d` — keys are stripped, later items overwrite earlier
ones. -/
def sku_data (all_items : List QueryItem) : List (String × QueryItem) :=
  all_items.foldl
    (fun d it =>
      match it.sku with
      | none => d
      | some s => if s = "" then d else pyInsert d (pyStrip s) it)
    []

/-- The enumeration fold behind `014.Analytics_base.py` line 75:
`sku_to_row = \x7bsku: idx + 5 for idx, sku in enumerate(sku_col) if
sku.strip()\x7d`. The key is the RAW cell value (not stripped); the value is
the 1-based sheet row of the occurrence, and later occurrences overwrite
earlier ones. -/
def sku_to_row_aux : Nat → List (String × Nat) → List String →
    List (String × Nat)
  | _, d, [] => d
  | i, d, s :: rest =>
      sku_to_row_aux (i + 1)
        (if pyStrip s = "" then d else pyInsert d s (i + 5)) rest

/-- `sku_to_row` of `014.Analytics_base.py` line 75, starting the
enumeration at index 0 (sheet row 5). -/
def sku_to_row (sku_col : List String) : List (String × Nat) :=
  sku_to_row_aux 0 [] sku_col

/-- A metric cell of the FX..GB block: `it.get(field, '')` — the value when
present, the empty string otherwise. -/
def metric_cell (v : Option ℚ) : Cell :=
  match v with
  | some q => Cell.rat q
  | none => Cell.str ""

/-- One element of the `updates` batch of `014.Analytics_base.py`
(lines 131-149): the 1-based target sheet row (range `FX<row>:GB<row>`) and
the five metric cells, or five empty cells when the raw SKU key is absent
from `sku_data`. -/
structure Update where
  targetRow : Nat
  values : List Cell
deriving DecidableEq

/-- The `updates` batch built by `014.Analytics_base.py::main`
(lines 131-149): one update per entry of `sku_to_row`, in dict order. -/
def updates (sku_col : List String) (data : List (String × QueryItem)) :
    List Update :=
  (sku_to_row sku_col).map (fun p =>
    let values :=
      match lookupKey data p.1 with
      | some it =>
          [metric_cell it.unique_search_users, metric_cell it.position,
           metric_cell it.unique_view_users, metric_cell it.view_conversion,
           metric_cell it.gmv]
      | none => List.replicate 5 (Cell.str "")
    ⟨p.2, values⟩)

end AnalyticsBase

namespace ProductOfferId

/-- `001.Product_offer_id.py::read_api_credentials` (lines 9-26): strip,
drop blank lines, require at least four remaining lines, and return the
fields in the order `(api_key, client_id, spreadsheet_id, sheet_name)`. -/
def read_api_credentials (ls : List String) :
    Except String (String × String × String × String) :=
  match (ls.map pyStrip).filter (fun s => s ≠ "") with
  | client_id :: api_key :: spreadsheet_id :: sheet_name :: _ =>
      .ok (api_key, client_id, spreadsheet_id, sheet_name)
  | _ => .error "must contain 4 lines"

end ProductOfferId

/-- The number of non-blank lines of a credential file after stripping —
the count the specification requires every reader to validate. -/
def nonBlankCount (ls : List String) : Nat :=
  ((ls.map pyStrip).filter (fun s => s ≠ "")).length

/-- Whether an `Except` result is a success (no exception raised). -/
def exceptOk {ε α : Type} : Except ε α → Bool
  | .ok _ => true
  | .error _ => false

/-- A cell of an emitted sheet row: `(rows.get? i).bind (·.get? j)`. -/
def cellAt (rows : List (List String)) (i j : Nat) : Option String :=
  (rows.get? i).bind (fun r => r.get? j)

/-- The sum of the `present` fields over the stock entries of one type, as
the specification words it. -/
def sumPresent (t : String) (stocks : List StockFboFbs.Stock) : ℤ :=
  ((stocks.filter (fun st => st.type = t)).map StockFboFbs.Stock.present).sum

/-! ## Concrete sample data used by witnesses and counterexamples -/

/-- A `/v5/product/info/prices` item with every sub-object absent; the
row projector substitutes its defaults for every field. -/
def PriceLogistic.emptyPriceItem : PriceLogistic.PriceItem :=
  ⟨none, none, none, none, none, none⟩

/-- A turnover item with `offer_id` `"A"` and `ads` 1. -/
def FboOborachivaemost.turnA1 : FboOborachivaemost.TurnItem :=
  ⟨some "A", some 1, none, none⟩

/-- A second turnover item with the same `offer_id` `"A"` but `ads` 2. -/
def FboOborachivaemost.turnA2 : FboOborachivaemost.TurnItem :=
  ⟨some "A", some 2, none, none⟩

/-- An analytics item with zero returns, zero days without sales, and an
ADS of 1/250 (which rounds to zero at two decimals). -/
def UpravlenieStocks.witItem : UpravlenieStocks.Item :=
  ⟨some "S", some 0, none, some (1 / 250), none, some 0⟩

/-- An analytics item whose ADS is 2.47 exactly. -/
def UpravlenieStocks.adsItem247 : UpravlenieStocks.Item :=
  ⟨some "S", none, none, some (247 / 100), none, none⟩

/-- A price item with `product_id` 1 and `acquiring` 1. -/
def PriceLogistic.priceItemA : PriceLogistic.PriceItem :=
  ⟨some 1, none, none, none, none, some 1⟩

/-- A second price item with the same `product_id` 1 but `acquiring` 2. -/
def PriceLogistic.priceItemB : PriceLogistic.PriceItem :=
  ⟨some 1, none, none, none, none, some 2⟩

/-- The key/value pairs `013.Price_logistic.py::get_ozon_prices` inserts,
in fetch order: each non-`None` item carrying a `product_id` contributes the
pair `(product_id, item)`. -/
def priceKV (l : List (Option PriceLogistic.PriceItem)) :
    List (ℤ × PriceLogistic.PriceItem) :=
  l.filterMap (fun o =>
    o.bind (fun it => it.product_id.map (fun pid => (pid, it))))

/-! # Lemmas -/

/-! ## Association-list lemmas -/

theorem lookupKey_pyInsert_self {K V : Type} [DecidableEq K]
    (d : List (K × V)) (k : K) (v : V) :
    lookupKey (pyInsert d k v) k = some v := by
  induction d with
  | nil => simp [pyInsert, lookupKey]
  | cons p d ih =>
      obtain ⟨a, b⟩ := p
      by_cases h : a = k
      · subst h
        simp [pyInsert, lookupKey]
      · simp [pyInsert, lookupKey, h, ih]

theorem lookupKey_pyInsert_ne {K V : Type} [DecidableEq K]
    (d : List (K × V)) (k k' : K) (v : V) (h : k' ≠ k) :
    lookupKey (pyInsert d k v) k' = lookupKey d k' := by
  induction d with
  | nil => simp [pyInsert, lookupKey, Ne.symm h]
  | cons p d ih =>
      obtain ⟨a, b⟩ := p
      by_cases ha : a = k
      · subst ha
        simp [pyInsert, lookupKey, Ne.symm h]
      · simp only [pyInsert, if_neg ha, lookupKey]
        by_cases ha' : a = k' <;> simp [ha', ih]

/-- Folding Python dict assignments over a list of key/value pairs: the last
pair written for a key wins, and untouched keys keep their prior value. -/
theorem lookupKey_pyFold {K V : Type} [DecidableEq K]
    (ps : List (K × V)) (d : List (K × V)) (k : K) :
    lookupKey (ps.foldl (fun d p => pyInsert d p.1 p.2) d) k
      = match lastMatch (fun p => p.1 == k) ps with
        | some p => some p.2
        | none => lookupKey d k := by
  simp only [lastMatch]
  induction ps using List.reverseRecOn generalizing d with
  | nil => simp
  | append_singleton ps p ih =>
      rw [List.foldl_append, List.foldl_cons, List.foldl_nil,
        List.reverse_append]
      simp only [List.reverse_cons, List.reverse_nil, List.nil_append,
        List.singleton_append]
      by_cases h : p.1 = k
      · rw [List.find?_cons_of_pos _ (by simp [h])]
        rw [h, lookupKey_pyInsert_self]
      · rw [List.find?_cons_of_neg _ (by simp [h])]
        rw [lookupKey_pyInsert_ne _ _ _ _ (fun hh => h hh.symm)]
        exact ih d

/-! ## `chunks` lemmas (`C5`) -/

theorem chunks_nil {α : Type} (n : Nat) : chunks n ([] : List α) = [] := by
  rw [chunks]
  split <;> rfl

theorem chunks_cons {α : Type} (n : Nat) (hn : n ≠ 0) (a : α) (ls : List α) :
    chunks n (a :: ls)
      = (a :: ls).take n :: chunks n ((a :: ls).drop n) := by
  rw [chunks]
  simp [hn]

theorem chunks_flatten {α : Type} (n : Nat) (hn : 0 < n) (l : List α) :
    (chunks n l).flatten = l := by
  have H : ∀ (fuel : Nat) (l : List α), l.length ≤ fuel →
      (chunks n l).flatten = l := by
    intro fuel
    induction fuel with
    | zero =>
        intro l hl
        have h0 : l = [] := List.eq_nil_of_length_eq_zero (Nat.le_zero.mp hl)
        subst h0
        simp [chunks_nil]
    | succ fuel ih =>
        intro l hl
        match l with
        | [] => simp [chunks_nil]
        | a :: ls =>
            have hl' : ls.length + 1 ≤ fuel + 1 := by simpa using hl
            rw [chunks_cons n (Nat.pos_iff_ne_zero.mp hn)]
            rw [List.flatten_cons]
            rw [ih ((a :: ls).drop n)
                (by simp only [List.length_drop, List.length_cons]; omega)]
            exact List.take_append_drop n (a :: ls)
  exact H l.length l le_rfl

theorem chunks_ne_nil {α : Type} (n : Nat) (hn : n ≠ 0) (a : α)
    (ls : List α) : chunks n (a :: ls) ≠ [] := by
  rw [chunks_cons n hn]
  simp

theorem chunks_dropLast_length {α : Type} (n : Nat) (hn : 0 < n)
    (l : List α) : ∀ c ∈ (chunks n l).dropLast, c.length = n := by
  have H : ∀ (fuel : Nat) (l : List α), l.length ≤ fuel →
      ∀ c ∈ (chunks n l).dropLast, c.length = n := by
    intro fuel
    induction fuel with
    | zero =>
        intro l hl
        have h0 : l = [] := List.eq_nil_of_length_eq_zero (Nat.le_zero.mp hl)
        subst h0
        simp [chunks_nil]
    | succ fuel ih =>
        intro l hl c hc
        match l with
        | [] => simp [chunks_nil] at hc
        | a :: ls =>
            have hl' : ls.length + 1 ≤ fuel + 1 := by simpa using hl
            rw [chunks_cons n (Nat.pos_iff_ne_zero.mp hn)] at hc
            match hrest : (a :: ls).drop n with
            | [] =>
                rw [hrest, chunks_nil] at hc
                simp at hc
            | b :: bs =>
                have hlen : n < ls.length + 1 := by
                  by_contra hcon
                  push_neg at hcon
                  have hdrop : (a :: ls).drop n = [] := by
                    apply List.drop_eq_nil_of_le
                    simpa using hcon
                  rw [hdrop] at hrest
                  simp at hrest
                obtain ⟨c0, cs, hc0⟩ :
                    ∃ c0 cs, chunks n ((a :: ls).drop n) = c0 :: cs := by
                  match hch : chunks n ((a :: ls).drop n) with
                  | [] =>
                      rw [hrest] at hch
                      exact absurd hch
                        (chunks_ne_nil n (Nat.pos_iff_ne_zero.mp hn) b bs)
                  | c0 :: cs => exact ⟨c0, cs, rfl⟩
                rw [hc0, List.dropLast_cons₂] at hc
                rcases List.mem_cons.mp hc with h | h
                · subst h
                  simp only [List.length_take, List.length_cons]
                  omega
                · refine ih ((a :: ls).drop n) ?_ c ?_
                  · simp only [List.length_drop, List.length_cons]
                    omega
                  · rw [hc0]
                    exact h
  exact H l.length l le_rfl

/-! ## Pagination lemmas (`C1`, `C7`) -/

theorem get_all_products_cons {I : Type} (limit : Nat)
    (p : ProductOfferId.CursorPage I) (rest : List (ProductOfferId.CursorPage I))
    (acc : List I) :
    ProductOfferId.get_all_products limit (p :: rest) acc
      = if p.items.length < limit then acc ++ p.items
        else if p.last_id = "" then acc ++ p.items
        else ProductOfferId.get_all_products limit rest (acc ++ p.items) := rfl

theorem ozonApiService_get_all_products_cons {I : Type} (limit : Nat)
    (p : ProductOfferId.CursorPage I) (rest : List (ProductOfferId.CursorPage I))
    (acc : List I) :
    OzonApiService.get_all_products limit (p :: rest) acc
      = if p.items.length < limit ∨ p.last_id = "" then acc ++ p.items
        else OzonApiService.get_all_products limit rest (acc ++ p.items) := rfl

theorem get_all_ozon_data_success_cons {I : Type} (maxRetries : Nat)
    (items : List I) (rest : List (FboOborachivaemost.OzonResponse I))
    (offset retry_count : Nat) (acc : List I)
    (tr : List FboOborachivaemost.Ev) :
    FboOborachivaemost.get_all_ozon_data maxRetries
        (FboOborachivaemost.OzonResponse.success items :: rest)
        offset retry_count acc tr
      = if items.isEmpty
        then (FboOborachivaemost.RunOutcome.ok acc,
              tr ++ [FboOborachivaemost.Ev.request offset])
        else if items.length < 1000
        then (FboOborachivaemost.RunOutcome.ok (acc ++ items),
              tr ++ [FboOborachivaemost.Ev.request offset])
        else FboOborachivaemost.get_all_ozon_data maxRetries rest
               (offset + items.length) retry_count (acc ++ items)
               ((tr ++ [FboOborachivaemost.Ev.request offset])
                  ++ [FboOborachivaemost.Ev.sleep 65]) := rfl

theorem get_all_ozon_data_failure_cons {I : Type} (maxRetries : Nat)
    (rest : List (FboOborachivaemost.OzonResponse I))
    (offset retry_count : Nat) (acc : List I)
    (tr : List FboOborachivaemost.Ev) :
    FboOborachivaemost.get_all_ozon_data maxRetries
        (FboOborachivaemost.OzonResponse.failure :: rest)
        offset retry_count acc tr
      = if maxRetries < retry_count + 1
        then (FboOborachivaemost.RunOutcome.raised,
              tr ++ [FboOborachivaemost.Ev.request offset])
        else FboOborachivaemost.get_all_ozon_data maxRetries rest
               offset (retry_count + 1) acc
               ((tr ++ [FboOborachivaemost.Ev.request offset])
                  ++ [FboOborachivaemost.Ev.sleep 60]) := rfl

theorem get_all_products_wf {I : Type} (limit : Nat) :
    ∀ (pages : List (ProductOfferId.CursorPage I)) (acc : List I),
      ProductOfferId.wfCursorSeries limit pages →
      ProductOfferId.get_all_products limit pages acc
        = acc ++ (pages.map ProductOfferId.CursorPage.items).flatten := by
  intro pages
  induction pages with
  | nil => intro acc h; exact absurd h (by simp [ProductOfferId.wfCursorSeries])
  | cons p rest ih =>
      intro acc h
      match rest with
      | [] =>
          have hp : p.items.length < limit ∨ p.last_id = "" := h
          rw [get_all_products_cons]
          simp only [List.map_cons, List.map_nil, List.flatten_cons,
            List.flatten_nil, List.append_nil]
          rcases hp with hp | hp
          · rw [if_pos hp]
          · by_cases hlt : p.items.length < limit
            · rw [if_pos hlt]
            · rw [if_neg hlt, if_pos hp]
      | q :: rest' =>
          obtain ⟨h1, h2, h3⟩ :
              limit ≤ p.items.length ∧ p.last_id ≠ "" ∧
                ProductOfferId.wfCursorSeries limit (q :: rest') := h
          rw [get_all_products_cons, if_neg (Nat.not_lt.mpr h1), if_neg h2,
            ih (acc ++ p.items) h3]
          simp

theorem ozonApiService_get_all_products_wf {I : Type} (limit : Nat) :
    ∀ (pages : List (ProductOfferId.CursorPage I)) (acc : List I),
      ProductOfferId.wfCursorSeries limit pages →
      OzonApiService.get_all_products limit pages acc
        = acc ++ (pages.map ProductOfferId.CursorPage.items).flatten := by
  intro pages
  induction pages with
  | nil => intro acc h; exact absurd h (by simp [ProductOfferId.wfCursorSeries])
  | cons p rest ih =>
      intro acc h
      match rest with
      | [] =>
          have hp : p.items.length < limit ∨ p.last_id = "" := h
          rw [ozonApiService_get_all_products_cons, if_pos hp]
          simp
      | q :: rest' =>
          obtain ⟨h1, h2, h3⟩ :
              limit ≤ p.items.length ∧ p.last_id ≠ "" ∧
                ProductOfferId.wfCursorSeries limit (q :: rest') := h
          rw [ozonApiService_get_all_products_cons,
            if_neg (by rw [not_or]; exact ⟨Nat.not_lt.mpr h1, h2⟩),
            ih (acc ++ p.items) h3]
          simp

theorem get_all_ozon_data_wf {I : Type} (maxRetries : Nat) :
    ∀ (pages : List (List I)) (offset retry_count : Nat) (acc : List I)
      (tr : List FboOborachivaemost.Ev),
      FboOborachivaemost.wfOffsetSeries pages →
      (FboOborachivaemost.get_all_ozon_data maxRetries
          (pages.map FboOborachivaemost.OzonResponse.success)
          offset retry_count acc tr).1
        = FboOborachivaemost.RunOutcome.ok (acc ++ pages.flatten) := by
  intro pages
  induction pages with
  | nil =>
      intro _ _ _ _ h
      exact absurd h (by simp [FboOborachivaemost.wfOffsetSeries])
  | cons p rest ih =>
      intro offset retry_count acc tr h
      match rest with
      | [] =>
          have hp : p.length < 1000 := h
          simp only [List.map_cons, List.map_nil]
          rw [get_all_ozon_data_success_cons]
          by_cases hempty : p.isEmpty
          · rw [if_pos hempty]
            have hp0 : p = [] := List.isEmpty_iff.mp hempty
            simp [hp0]
          · rw [if_neg hempty, if_pos hp]
            simp
      | q :: rest' =>
          obtain ⟨h1, h3⟩ :
              1000 ≤ p.length ∧
                FboOborachivaemost.wfOffsetSeries (q :: rest') := h
          have hne : ¬ p.isEmpty := by
            intro hemp
            have hp0 : p = [] := List.isEmpty_iff.mp hemp
            subst hp0
            simp at h1
          rw [List.map_cons]
          rw [get_all_ozon_data_success_cons, if_neg hne,
            if_neg (Nat.not_lt.mpr h1)]
          rw [ih (offset + p.length) retry_count (acc ++ p) _ h3]
          simp

namespace FboOborachivaemost

/-- Whether an event is the 60-second retry sleep of the exception
handler. -/
def isRetrySleep : Ev → Bool
  | Ev.sleep 60 => true
  | _ => false

/-- The number of failed requests in a response series. -/
def countFailures {I : Type} (s : List (OzonResponse I)) : Nat :=
  s.countP OzonResponse.isFailure

end FboOborachivaemost

theorem retry_sleep_bound {I : Type} (maxRetries : Nat) :
    ∀ (s : List (FboOborachivaemost.OzonResponse I))
      (offset retry_count : Nat) (acc : List I)
      (tr : List FboOborachivaemost.Ev),
      retry_count ≤ maxRetries →
      ((FboOborachivaemost.get_all_ozon_data maxRetries s offset retry_count
          acc tr).2.countP FboOborachivaemost.isRetrySleep)
        ≤ tr.countP FboOborachivaemost.isRetrySleep
            + (maxRetries - retry_count) := by
  intro s
  induction s with
  | nil =>
      intro offset retry_count acc tr _
      simp [FboOborachivaemost.get_all_ozon_data]
  | cons r rest ih =>
      intro offset retry_count acc tr hrc
      match r with
      | .success items =>
          rw [get_all_ozon_data_success_cons]
          by_cases hempty : items.isEmpty
          · rw [if_pos hempty]
            simp [List.countP_append, FboOborachivaemost.isRetrySleep]
          · rw [if_neg hempty]
            by_cases hshort : items.length < 1000
            · rw [if_pos hshort]
              simp [List.countP_append, FboOborachivaemost.isRetrySleep]
            · rw [if_neg hshort]
              refine le_trans (ih _ _ _ _ hrc) ?_
              simp [List.countP_append, FboOborachivaemost.isRetrySleep]
      | .failure =>
          rw [get_all_ozon_data_failure_cons]
          by_cases hraise : maxRetries < retry_count + 1
          · rw [if_pos hraise]
            simp [List.countP_append, FboOborachivaemost.isRetrySleep]
          · rw [if_neg hraise]
            push_neg at hraise
            refine le_trans (ih _ _ _ _ hraise) ?_
            simp only [List.countP_append]
            have h60 : ([FboOborachivaemost.Ev.sleep 60].countP
                FboOborachivaemost.isRetrySleep) = 1 := by
              simp [FboOborachivaemost.isRetrySleep]
            have hreq : ([FboOborachivaemost.Ev.request offset].countP
                FboOborachivaemost.isRetrySleep) = 0 := by
              simp [FboOborachivaemost.isRetrySleep]
            rw [h60, hreq]
            omega

theorem raised_after_retries {I : Type} (maxRetries : Nat) :
    ∀ (s : List (FboOborachivaemost.OzonResponse I))
      (offset retry_count : Nat) (acc : List I)
      (tr : List FboOborachivaemost.Ev),
      retry_count ≤ maxRetries →
      (FboOborachivaemost.get_all_ozon_data maxRetries s offset retry_count
          acc tr).1 = FboOborachivaemost.RunOutcome.raised →
      maxRetries + 1 ≤ FboOborachivaemost.countFailures s + retry_count
        ∧ ((FboOborachivaemost.get_all_ozon_data maxRetries s offset
              retry_count acc tr).2.countP FboOborachivaemost.isRetrySleep)
            = tr.countP FboOborachivaemost.isRetrySleep
                + (maxRetries - retry_count) := by
  intro s
  induction s with
  | nil =>
      intro offset retry_count acc tr _ hres
      simp [FboOborachivaemost.get_all_ozon_data] at hres
  | cons r rest ih =>
      intro offset retry_count acc tr hrc hres
      match r with
      | .success items =>
          rw [get_all_ozon_data_success_cons] at hres ⊢
          by_cases hempty : items.isEmpty
          · rw [if_pos hempty] at hres
            simp at hres
          · rw [if_neg hempty] at hres ⊢
            by_cases hshort : items.length < 1000
            · rw [if_pos hshort] at hres
              simp at hres
            · rw [if_neg hshort] at hres ⊢
              have hcount : FboOborachivaemost.countFailures
                  (FboOborachivaemost.OzonResponse.success items :: rest)
                    = FboOborachivaemost.countFailures rest := by
                simp [FboOborachivaemost.countFailures,
                  FboOborachivaemost.OzonResponse.isFailure]
              rw [hcount]
              have := ih _ _ _ _ hrc hres
              refine ⟨this.1, ?_⟩
              rw [this.2]
              simp [List.countP_append, FboOborachivaemost.isRetrySleep]
      | .failure =>
          rw [get_all_ozon_data_failure_cons] at hres ⊢
          have hcount : FboOborachivaemost.countFailures
              (FboOborachivaemost.OzonResponse.failure :: rest)
                = FboOborachivaemost.countFailures rest + 1 := by
            simp [FboOborachivaemost.countFailures,
              FboOborachivaemost.OzonResponse.isFailure]
          by_cases hraise : maxRetries < retry_count + 1
          · rw [if_pos hraise] at hres ⊢
            constructor
            · omega
            · simp only [List.countP_append]
              have hreq : ([FboOborachivaemost.Ev.request offset].countP
                  FboOborachivaemost.isRetrySleep) = 0 := by
                simp [FboOborachivaemost.isRetrySleep]
              rw [hreq]
              omega
          · rw [if_neg hraise] at hres ⊢
            push_neg at hraise
            have := ih _ _ _ _ hraise hres
            constructor
            · omega
            · rw [this.2]
              simp only [List.countP_append]
              have h60 : ([FboOborachivaemost.Ev.sleep 60].countP
                  FboOborachivaemost.isRetrySleep) = 1 := by
                simp [FboOborachivaemost.isRetrySleep]
              have hreq : ([FboOborachivaemost.Ev.request offset].countP
                  FboOborachivaemost.isRetrySleep) = 0 := by
                simp [FboOborachivaemost.isRetrySleep]
              rw [h60, hreq]
              omega

theorem failures_are_noops {I : Type} (maxRetries : Nat) :
    ∀ (s : List (FboOborachivaemost.OzonResponse I))
      (offset retry_count retry_count' : Nat) (acc : List I)
      (tr tr' : List FboOborachivaemost.Ev),
      FboOborachivaemost.countFailures s + retry_count ≤ maxRetries →
      (FboOborachivaemost.get_all_ozon_data maxRetries s offset retry_count
          acc tr).1
        = (FboOborachivaemost.get_all_ozon_data maxRetries
            (s.filter FboOborachivaemost.OzonResponse.isSuccess)
            offset retry_count' acc tr').1
      ∧ (FboOborachivaemost.get_all_ozon_data maxRetries s offset retry_count
          acc tr).1 ≠ FboOborachivaemost.RunOutcome.raised := by
  intro s
  induction s with
  | nil =>
      intro offset retry_count retry_count' acc tr tr' _
      simp [FboOborachivaemost.get_all_ozon_data]
  | cons r rest ih =>
      intro offset retry_count retry_count' acc tr tr' hbound
      match r with
      | .success items =>
          have hfil : (FboOborachivaemost.OzonResponse.success items :: rest).filter
              FboOborachivaemost.OzonResponse.isSuccess
              = FboOborachivaemost.OzonResponse.success items
                  :: rest.filter FboOborachivaemost.OzonResponse.isSuccess := by
            simp [List.filter_cons, FboOborachivaemost.OzonResponse.isSuccess]
          rw [hfil, get_all_ozon_data_success_cons,
            get_all_ozon_data_success_cons]
          by_cases hempty : items.isEmpty
          · rw [if_pos hempty, if_pos hempty]
            simp
          · rw [if_neg hempty, if_neg hempty]
            by_cases hshort : items.length < 1000
            · rw [if_pos hshort, if_pos hshort]
              simp
            · rw [if_neg hshort, if_neg hshort]
              have hb : FboOborachivaemost.countFailures rest + retry_count
                  ≤ maxRetries := by
                have : FboOborachivaemost.countFailures
                    (FboOborachivaemost.OzonResponse.success items :: rest)
                      = FboOborachivaemost.countFailures rest := by
                  simp [FboOborachivaemost.countFailures,
                    FboOborachivaemost.OzonResponse.isFailure]
                omega
              exact ih _ _ _ _ _ _ hb
      | .failure =>
          have hcount : FboOborachivaemost.countFailures
              (FboOborachivaemost.OzonResponse.failure :: rest)
                = FboOborachivaemost.countFailures rest + 1 := by
            simp [FboOborachivaemost.countFailures,
              FboOborachivaemost.OzonResponse.isFailure]
          have hfil : (FboOborachivaemost.OzonResponse.failure :: rest).filter
              FboOborachivaemost.OzonResponse.isSuccess
              = rest.filter FboOborachivaemost.OzonResponse.isSuccess := by
            simp [List.filter_cons, FboOborachivaemost.OzonResponse.isSuccess]
          rw [hfil, get_all_ozon_data_failure_cons]
          have hnoraise : ¬ maxRetries < retry_count + 1 := by omega
          rw [if_neg hnoraise]
          have hb : FboOborachivaemost.countFailures rest + (retry_count + 1)
              ≤ maxRetries := by omega
          exact ih _ _ _ _ _ _ hb

/-! ## Duplicate-resolution lemmas (`C3`, `C10`) -/

theorem find?_prefix_sandwich {α : Type} (p : α → Bool) (A B : List α)
    (x : α) (hA : ∀ y ∈ A, p y = false) (hx : p x = true) :
    List.find? p (A ++ x :: B) = some x := by
  rw [List.find?_append]
  have h1 : List.find? p A = none := by
    rw [List.find?_eq_none]
    intro y hy
    simp [hA y hy]
  rw [h1, List.find?_cons_of_pos _ hx]
  rfl

theorem lastMatch_sandwich {α : Type} (p : α → Bool) (A B : List α)
    (x : α) (hx : p x = true) (hB : ∀ y ∈ B, p y = false) :
    lastMatch p (A ++ x :: B) = some x := by
  simp only [lastMatch]
  rw [show (A ++ x :: B).reverse = B.reverse ++ x :: A.reverse from by simp]
  exact find?_prefix_sandwich p B.reverse A.reverse x
    (fun y hy => hB y (List.mem_reverse.mp hy)) hx

theorem get_ozon_prices_eq_kv_fold
    (rs : List (List (Option PriceLogistic.PriceItem))) :
    PriceLogistic.get_ozon_prices rs
      = (priceKV rs.flatten).foldl (fun d p => pyInsert d p.1 p.2) [] := by
  have hflat : PriceLogistic.get_ozon_prices rs
      = rs.flatten.foldl PriceLogistic.price_insert [] := by
    rw [PriceLogistic.get_ozon_prices, List.foldl_flatten]
  rw [hflat]
  have H : ∀ (l : List (Option PriceLogistic.PriceItem))
      (d : List (ℤ × PriceLogistic.PriceItem)),
      l.foldl PriceLogistic.price_insert d
        = (priceKV l).foldl (fun d p => pyInsert d p.1 p.2) d := by
    intro l
    induction l with
    | nil => intro d; simp [priceKV]
    | cons o rest ih =>
        intro d
        match o with
        | none =>
            simp only [List.foldl_cons, priceKV, List.filterMap_cons]
            simp only [Option.bind]
            exact ih d
        | some item =>
            match hpid : item.product_id with
            | none =>
                simp only [List.foldl_cons, priceKV, List.filterMap_cons]
                simp [PriceLogistic.price_insert, hpid, ih d, priceKV]
            | some pid =>
                simp only [List.foldl_cons, priceKV, List.filterMap_cons]
                simp [PriceLogistic.price_insert, hpid, ih, priceKV]
  exact H rs.flatten []

theorem get_ozon_prices_last_wins
    (rs : List (List (Option PriceLogistic.PriceItem)))
    (pre post : List (Option PriceLogistic.PriceItem))
    (item : PriceLogistic.PriceItem) (pid : ℤ)
    (hflat : rs.flatten = pre ++ some item :: post)
    (hpid : item.product_id = some pid)
    (hpost : ∀ o ∈ post, ∀ it2 : PriceLogistic.PriceItem,
        o = some it2 → it2.product_id ≠ some pid) :
    lookupKey (PriceLogistic.get_ozon_prices rs) pid = some item := by
  rw [get_ozon_prices_eq_kv_fold, hflat]
  have hkv : priceKV (pre ++ some item :: post)
      = priceKV pre ++ (pid, item) :: priceKV post := by
    simp only [priceKV, List.filterMap_append, List.filterMap_cons]
    simp [hpid]
  rw [hkv, lookupKey_pyFold]
  rw [lastMatch_sandwich (fun p => p.1 == pid) (priceKV pre) (priceKV post)
    (pid, item) (by simp) ?_]
  intro q hq
  simp only [priceKV, List.mem_filterMap] at hq
  obtain ⟨o, ho, hfo⟩ := hq
  match o with
  | none => simp at hfo
  | some it2 =>
      rw [Option.some_bind] at hfo
      match hp2 : it2.product_id with
      | none => rw [hp2] at hfo; simp at hfo
      | some pid2 =>
          rw [hp2] at hfo
          have hq1 : q = (pid2, it2) := by simpa using hfo.symm
          have hne : it2.product_id ≠ some pid := hpost (some it2) ho it2 rfl
          rw [hp2] at hne
          have hpidne : pid2 ≠ pid := fun hh => hne (by rw [hh])
          rw [hq1]
          exact beq_eq_false_iff_ne.mpr hpidne

theorem pick_item_first_wins (pre post : List FboOborachivaemost.TurnItem)
    (it : FboOborachivaemost.TurnItem) (oid : String)
    (hit : it.offer_id = some oid)
    (hpre : ∀ x ∈ pre, x.offer_id ≠ some oid) :
    FboOborachivaemost.pick_item (pre ++ it :: post) oid = some it := by
  rw [FboOborachivaemost.pick_item]
  apply find?_prefix_sandwich
  · intro y hy
    exact beq_eq_false_iff_ne.mpr (hpre y hy)
  · rw [hit]
    simp

theorem build_maps_rep_stable :
    ∀ (l : List UpravlenieStocks.Item)
      (maps : List (String × UpravlenieStocks.Item) × List (String × ℤ))
      (s : String) (v : UpravlenieStocks.Item),
      lookupKey maps.1 s = some v →
      lookupKey (l.foldl UpravlenieStocks.build_maps_step maps).1 s
        = some v := by
  intro l
  induction l with
  | nil => intro maps s v h; exact h
  | cons it rest ih =>
      intro maps s v h
      rw [List.foldl_cons]
      apply ih
      match hsku : it.sku with
      | none => simpa [UpravlenieStocks.build_maps_step, hsku] using h
      | some s' =>
          by_cases hs' : s' = ""
          · simpa [UpravlenieStocks.build_maps_step, hsku, hs'] using h
          · simp only [UpravlenieStocks.build_maps_step, hsku, if_neg hs']
            by_cases heq : s' = s
            · subst heq
              simp [h, Option.isSome]
            · by_cases hmem : (lookupKey maps.1 s').isSome
              · simpa [hmem] using h
              · simp only [hmem, Bool.false_eq_true, if_false]
                rw [lookupKey_pyInsert_ne _ _ _ _
                  (fun hh => heq hh.symm)]
                exact h

theorem build_maps_rep_skip :
    ∀ (l : List UpravlenieStocks.Item)
      (maps : List (String × UpravlenieStocks.Item) × List (String × ℤ))
      (s : String),
      (∀ x ∈ l, x.sku ≠ some s) →
      lookupKey (l.foldl UpravlenieStocks.build_maps_step maps).1 s
        = lookupKey maps.1 s := by
  intro l
  induction l with
  | nil => intro maps s _; rfl
  | cons it rest ih =>
      intro maps s h
      rw [List.foldl_cons]
      rw [ih _ s (fun x hx => h x (List.mem_cons_of_mem it hx))]
      match hsku : it.sku with
      | none => simp [UpravlenieStocks.build_maps_step, hsku]
      | some s' =>
          have hne : s' ≠ s := by
            intro hh
            exact h it (List.mem_cons_self it rest) (by rw [hsku, hh])
          by_cases hs' : s' = ""
          · simp [UpravlenieStocks.build_maps_step, hsku, hs']
          · simp only [UpravlenieStocks.build_maps_step, hsku, if_neg hs']
            by_cases hmem : (lookupKey maps.1 s').isSome
            · simp [hmem]
            · simp only [hmem, Bool.false_eq_true, if_false]
              exact lookupKey_pyInsert_ne _ _ _ _ (fun hh => hne hh.symm)

theorem build_maps_rep_first_wins (pre post : List UpravlenieStocks.Item)
    (it : UpravlenieStocks.Item) (s : String)
    (hsku : it.sku = some s) (hs : s ≠ "")
    (hpre : ∀ x ∈ pre, x.sku ≠ some s) :
    lookupKey (UpravlenieStocks.build_maps (pre ++ it :: post)).1 s
      = some it := by
  rw [UpravlenieStocks.build_maps, List.foldl_append, List.foldl_cons]
  apply build_maps_rep_stable
  have h0 : lookupKey
      ((pre.foldl UpravlenieStocks.build_maps_step ([], [])).1) s = none := by
    rw [build_maps_rep_skip pre ([], []) s hpre]
    rfl
  simp only [UpravlenieStocks.build_maps_step, hsku, if_neg hs, h0]
  simp [lookupKey_pyInsert_self]

theorem stock_dict_lookup (items : List StockFboFbs.StockItem) (k : String) :
    lookupKey (StockFboFbs.stock_dict items) k
      = (lastMatch (fun it => toString it.product_id == k) items).map
          StockFboFbs.StockItem.stocks := by
  have hmap : StockFboFbs.stock_dict items
      = (items.map (fun it => (toString it.product_id, it.stocks))).foldl
          (fun d p => pyInsert d p.1 p.2) [] := by
    rw [StockFboFbs.stock_dict, List.foldl_map]
  rw [hmap, lookupKey_pyFold]
  simp only [lastMatch, ← List.map_reverse, List.find?_map]
  match h : List.find?
      ((fun p => p.1 == k) ∘ fun it => (toString it.product_id, it.stocks))
      items.reverse with
  | none =>
      have h' : List.find? (fun it => toString it.product_id == k)
          items.reverse = none := h
      rw [h, h']
      rfl
  | some it =>
      have h' : List.find? (fun it => toString it.product_id == k)
          items.reverse = some it := h
      rw [h, h']
      rfl

theorem fbo_fbs_sums_spec (stocks : List StockFboFbs.Stock) :
    StockFboFbs.fbo_fbs_sums stocks
      = (sumPresent "fbo" stocks, sumPresent "fbs" stocks) := by
  have H : ∀ (l : List StockFboFbs.Stock) (a b : ℤ),
      l.foldl
        (fun p st =>
          if st.type = "fbo" then (p.1 + st.present, p.2)
          else if st.type = "fbs" then (p.1, p.2 + st.present)
          else p)
        (a, b)
      = (a + sumPresent "fbo" l, b + sumPresent "fbs" l) := by
    intro l
    induction l with
    | nil => intro a b; simp [sumPresent]
    | cons st rest ih =>
        intro a b
        simp only [List.foldl_cons]
        by_cases hfbo : st.type = "fbo"
        · have e1 : sumPresent "fbo" (st :: rest)
              = st.present + sumPresent "fbo" rest := by
            simp [sumPresent, List.filter_cons, hfbo]
          have e2 : sumPresent "fbs" (st :: rest)
              = sumPresent "fbs" rest := by
            simp [sumPresent, List.filter_cons, hfbo]
          rw [if_pos hfbo, ih, e1, e2, Prod.mk.injEq]
          exact ⟨by ring, rfl⟩
        · by_cases hfbs : st.type = "fbs"
          · have e1 : sumPresent "fbo" (st :: rest)
                = sumPresent "fbo" rest := by
              simp [sumPresent, List.filter_cons, hfbs]
            have e2 : sumPresent "fbs" (st :: rest)
                = st.present + sumPresent "fbs" rest := by
              simp [sumPresent, List.filter_cons, hfbs]
            rw [if_neg hfbo, if_pos hfbs, ih, e1, e2, Prod.mk.injEq]
            exact ⟨rfl, by ring⟩
          · have e1 : sumPresent "fbo" (st :: rest)
                = sumPresent "fbo" rest := by
              simp [sumPresent, List.filter_cons, hfbo]
            have e2 : sumPresent "fbs" (st :: rest)
                = sumPresent "fbs" rest := by
              simp [sumPresent, List.filter_cons, hfbs]
            rw [if_neg hfbo, if_neg hfbs, ih, e1, e2]
  rw [StockFboFbs.fbo_fbs_sums, H]
  simp

/-! ## `sku_to_row` lemmas (`C9`) -/

theorem pyInsert_keys_toFinset {V : Type} (d : List (String × V))
    (k : String) (v : V) :
    ((pyInsert d k v).map Prod.fst).toFinset
      = insert k ((d.map Prod.fst).toFinset) := by
  induction d with
  | nil => simp [pyInsert]
  | cons p d ih =>
      obtain ⟨a, b⟩ := p
      by_cases ha : a = k
      · subst ha
        simp [pyInsert]
      · simp only [pyInsert, if_neg ha, List.map_cons, List.toFinset_cons, ih]
        exact Finset.Insert.comm a k _

theorem pyInsert_keys_nodup {V : Type} (d : List (String × V))
    (k : String) (v : V) (h : (d.map Prod.fst).Nodup) :
    ((pyInsert d k v).map Prod.fst).Nodup := by
  induction d with
  | nil => simp [pyInsert]
  | cons p d ih =>
      obtain ⟨a, b⟩ := p
      simp only [List.map_cons, List.nodup_cons] at h
      by_cases ha : a = k
      · subst ha
        simpa [pyInsert, List.nodup_cons] using h
      · simp only [pyInsert, if_neg ha, List.map_cons, List.nodup_cons]
        constructor
        · intro hmem
          have : a ∈ ((pyInsert d k v).map Prod.fst).toFinset :=
            List.mem_toFinset.mpr hmem
          rw [pyInsert_keys_toFinset] at this
          rcases Finset.mem_insert.mp this with h1 | h1
          · exact ha h1
          · exact h.1 (List.mem_toFinset.mp h1)
        · exact ih h.2

theorem mem_iff_lookupKey {V : Type} :
    ∀ (d : List (String × V)), (d.map Prod.fst).Nodup →
      ∀ (k : String) (v : V), ((k, v) ∈ d ↔ lookupKey d k = some v) := by
  intro d
  induction d with
  | nil => intro _ k v; simp [lookupKey]
  | cons p d ih =>
      intro hnd k v
      obtain ⟨a, b⟩ := p
      simp only [List.map_cons, List.nodup_cons] at hnd
      by_cases ha : a = k
      · subst ha
        rw [List.mem_cons]
        constructor
        · rintro (h1 | h1)
          · injection h1 with h1a h1b
            simp [lookupKey, h1b]
          · exact absurd (List.mem_map_of_mem Prod.fst h1) hnd.1
        · intro h1
          left
          have hb : b = v := by simpa [lookupKey] using h1
          rw [hb]
      · rw [List.mem_cons]
        rw [show lookupKey ((a, b) :: d) k = lookupKey d k from by
          simp [lookupKey, ha]]
        rw [← ih hnd.2 k v]
        constructor
        · rintro (h1 | h1)
          · injection h1 with h1a h1b
            exact absurd h1a.symm ha
          · exact h1
        · exact Or.inr

theorem lastIndexOf_isSome_iff (s : String) :
    ∀ (col : List String), (lastIndexOf s col).isSome = true ↔ s ∈ col := by
  intro col
  induction col with
  | nil => simp [lastIndexOf]
  | cons b rest ih =>
      cases hre : lastIndexOf s rest with
      | some j =>
          have hmem : s ∈ rest := ih.mp (by simp [hre])
          simp [lastIndexOf, hre, hmem]
      | none =>
          have hnmem : s ∉ rest := fun hmem => by
            have := ih.mpr hmem
            rw [hre] at this
            simp at this
          by_cases hb : b = s <;> simp [lastIndexOf, hre, hb, hnmem]
          exact fun h => hb h.symm

theorem lastIndexOf_spec (s : String) :
    ∀ (col : List String) (j : Nat), lastIndexOf s col = some j →
      j < col.length ∧ col[j]? = some s
        ∧ ∀ m, j < m → col[m]? ≠ some s := by
  intro col
  induction col with
  | nil => intro j h; simp [lastIndexOf] at h
  | cons b rest ih =>
      intro j h
      cases hre : lastIndexOf s rest with
      | some j' =>
          rw [lastIndexOf, hre] at h
          have hj : j = j' + 1 := by simpa using h.symm
          subst hj
          obtain ⟨hlt, hget, hafter⟩ := ih j' hre
          refine ⟨by simpa using Nat.succ_lt_succ hlt, by simpa using hget, ?_⟩
          intro m hm
          match m with
          | 0 => omega
          | m' + 1 =>
              rw [List.getElem?_cons_succ]
              exact hafter m' (by omega)
      | none =>
          rw [lastIndexOf, hre] at h
          by_cases hb : b = s
          · rw [if_pos hb] at h
            have hj : j = 0 := by simpa using h.symm
            subst hj
            refine ⟨by simp, by simpa using hb, ?_⟩
            intro m hm
            match m with
            | 0 => omega
            | m' + 1 =>
                rw [List.getElem?_cons_succ]
                intro hcon
                have hmem : s ∈ rest := List.getElem?_mem hcon
                have := (lastIndexOf_isSome_iff s rest).mpr hmem
                rw [hre] at this
                simp at this
          · rw [if_neg hb] at h
            simp at h

theorem lastIndexOf_last_occ (s : String) :
    ∀ (col : List String) (i : Nat), col[i]? = some s →
      (∀ m, i < m → col[m]? ≠ some s) → lastIndexOf s col = some i := by
  intro col
  induction col with
  | nil => intro i h _; simp at h
  | cons b rest ih =>
      intro i h hafter
      match i with
      | 0 =>
          have hb : b = s := by simpa using h
          have hnone : lastIndexOf s rest = none := by
            cases hre : lastIndexOf s rest with
            | none => rfl
            | some j =>
                have hmem : s ∈ rest :=
                  (lastIndexOf_isSome_iff s rest).mp (by simp [hre])
                obtain ⟨n, hn⟩ := List.getElem?_of_mem hmem
                exact absurd hn
                  (by simpa using hafter (n + 1) (by omega))
          rw [lastIndexOf, hnone, if_pos hb]
      | i' + 1 =>
          rw [List.getElem?_cons_succ] at h
          have hre : lastIndexOf s rest = some i' := by
            apply ih i' h
            intro m hm
            simpa using hafter (m + 1) (by omega)
          rw [lastIndexOf, hre]

theorem sku_to_row_aux_lookup (s : String) (hs : pyStrip s ≠ "") :
    ∀ (col : List String) (i : Nat) (d : List (String × Nat)),
      lookupKey (AnalyticsBase.sku_to_row_aux i d col) s
        = match lastIndexOf s col with
          | some j => some (i + j + 5)
          | none => lookupKey d s := by
  intro col
  induction col with
  | nil => intro i d; simp [AnalyticsBase.sku_to_row_aux, lastIndexOf]
  | cons a rest ih =>
      intro i d
      rw [show AnalyticsBase.sku_to_row_aux i d (a :: rest)
          = AnalyticsBase.sku_to_row_aux (i + 1)
              (if pyStrip a = "" then d else pyInsert d a (i + 5)) rest from rfl]
      rw [ih (i + 1) _]
      cases hre : lastIndexOf s rest with
      | some j =>
          rw [lastIndexOf, hre]
          show some (i + 1 + j + 5) = some (i + (j + 1) + 5)
          simp only [Option.some.injEq]
          omega
      | none =>
          rw [lastIndexOf, hre]
          by_cases hb : a = s
          · subst hb
            rw [if_pos rfl, if_neg hs, lookupKey_pyInsert_self]
          · rw [if_neg hb]
            by_cases htrim : pyStrip a = ""
            · rw [if_pos htrim]
            · rw [if_neg htrim,
                lookupKey_pyInsert_ne _ _ _ _ (fun hh => hb hh.symm)]

theorem sku_to_row_aux_keys (col : List String) :
    ∀ (i : Nat) (d : List (String × Nat)),
      ((AnalyticsBase.sku_to_row_aux i d col).map Prod.fst).toFinset
        = (d.map Prod.fst).toFinset
            ∪ (col.filter (fun s => pyStrip s ≠ "")).toFinset := by
  induction col with
  | nil => intro i d; simp [AnalyticsBase.sku_to_row_aux]
  | cons a rest ih =>
      intro i d
      rw [show AnalyticsBase.sku_to_row_aux i d (a :: rest)
          = AnalyticsBase.sku_to_row_aux (i + 1)
              (if pyStrip a = "" then d else pyInsert d a (i + 5)) rest from rfl]
      rw [ih (i + 1) _]
      by_cases htrim : pyStrip a = ""
      · rw [if_pos htrim]
        rw [show (a :: rest).filter (fun s => pyStrip s ≠ "")
            = rest.filter (fun s => pyStrip s ≠ "") from by
          simp [List.filter_cons, htrim]]
      · rw [if_neg htrim]
        rw [show (a :: rest).filter (fun s => pyStrip s ≠ "")
            = a :: rest.filter (fun s => pyStrip s ≠ "") from by
          simp [List.filter_cons, htrim]]
        rw [pyInsert_keys_toFinset, List.toFinset_cons]
        ext x
        simp only [Finset.mem_union, Finset.mem_insert]
        tauto

theorem sku_to_row_aux_nodup (col : List String) :
    ∀ (i : Nat) (d : List (String × Nat)),
      (d.map Prod.fst).Nodup →
      ((AnalyticsBase.sku_to_row_aux i d col).map Prod.fst).Nodup := by
  induction col with
  | nil => intro i d h; exact h
  | cons a rest ih =>
      intro i d h
      rw [show AnalyticsBase.sku_to_row_aux i d (a :: rest)
          = AnalyticsBase.sku_to_row_aux (i + 1)
              (if pyStrip a = "" then d else pyInsert d a (i + 5)) rest from rfl]
      apply ih
      by_cases htrim : pyStrip a = ""
      · rwa [if_pos htrim]
      · rw [if_neg htrim]
        exact pyInsert_keys_nodup d a (i + 5) h

theorem sku_to_row_nodup (col : List String) :
    ((AnalyticsBase.sku_to_row col).map Prod.fst).Nodup :=
  sku_to_row_aux_nodup col 0 [] (by simp)

theorem sku_to_row_mem_iff (col : List String) (s : String) (r : Nat) :
    (s, r) ∈ AnalyticsBase.sku_to_row col
      ↔ pyStrip s ≠ "" ∧ lastIndexOf s col = some (r - 5) ∧ 5 ≤ r := by
  rw [mem_iff_lookupKey _ (sku_to_row_nodup col)]
  constructor
  · intro h
    have hs : pyStrip s ≠ "" := by
      have hmem : s ∈ ((AnalyticsBase.sku_to_row col).map Prod.fst) := by
        have : (s, r) ∈ AnalyticsBase.sku_to_row col :=
          (mem_iff_lookupKey _ (sku_to_row_nodup col) s r).mpr h
        exact List.mem_map_of_mem Prod.fst this
      have : s ∈ (col.filter (fun s => pyStrip s ≠ "")).toFinset := by
        have h2 := sku_to_row_aux_keys col 0 []
        rw [AnalyticsBase.sku_to_row] at hmem
        have h3 := List.mem_toFinset.mpr hmem
        rw [h2] at h3
        simpa using h3
      have := List.mem_toFinset.mp this
      exact of_decide_eq_true (List.mem_filter.mp this).2
    rw [AnalyticsBase.sku_to_row, sku_to_row_aux_lookup s hs] at h
    cases hre : lastIndexOf s col with
    | none => rw [hre] at h; simp [lookupKey] at h
    | some j =>
        rw [hre] at h
        have : r = j + 5 := by simpa using h.symm
        subst this
        exact ⟨hs, by simp [hre], by omega⟩
  · rintro ⟨hs, hre, hr5⟩
    rw [AnalyticsBase.sku_to_row, sku_to_row_aux_lookup s hs, hre]
    show some (0 + (r - 5) + 5) = some r
    simp only [Option.some.injEq]
    omega

theorem sku_to_row_length (col : List String) :
    (AnalyticsBase.sku_to_row col).length
      = ((col.filter (fun s => pyStrip s ≠ "")).dedup).length := by
  have h1 : (AnalyticsBase.sku_to_row col).length
      = ((AnalyticsBase.sku_to_row col).map Prod.fst).length := by
    rw [List.length_map]
  rw [h1, ← List.toFinset_card_of_nodup (sku_to_row_nodup col)]
  rw [AnalyticsBase.sku_to_row, sku_to_row_aux_keys col 0 []]
  simp only [List.map_nil, List.toFinset_nil, Finset.empty_union]
  exact List.card_toFinset _

/-! # Claim theorems -/

/-- C5: for every sequence `S` and chunk size `n > 0`, concatenating
`chunk(S, n)` reproduces `S` exactly (which also fixes the order within and
across chunks), and every chunk except possibly the last has length exactly
`n`. -/
theorem c5_chunk_reassembly {α : Type} (n : Nat) (hn : 0 < n) (l : List α) :
    (chunks n l).flatten = l
      ∧ ∀ c ∈ (chunks n l).dropLast, c.length = n :=
  ⟨chunks_flatten n hn l, chunks_dropLast_length n hn l⟩

/-- Witness for C5 at `n = 2`, `S = [1, 2, 3, 4, 5]`. -/
theorem c5_chunk_reassembly_witness :
    (chunks 2 [1, 2, 3, 4, 5]).flatten = [1, 2, 3, 4, 5]
      ∧ ∀ c ∈ (chunks 2 [1, 2, 3, 4, 5]).dropLast, c.length = 2 :=
  c5_chunk_reassembly 2 (by decide) [1, 2, 3, 4, 5]

/-- C1: for every finite series of pages respecting the continuation
protocol, the three fetch loops terminate (they are total functions of the
series, consuming at most one response per iteration) and return exactly the
concatenation of the items of all pages in response order: the cursor-based
loops of `001.Product_offer_id.py` and
`ozon_app/servises/ozon_api_servise.py` (stop when the token is empty or the
page is shorter than `limit`), and the offset-based loop of
`005.FBO_Oborachivaemost.py` (offset advanced by the number of items
received; stop on an empty or short page). -/
theorem c1_fetch_all_concatenation {I J K : Type} (limit : Nat)
    (pages1 : List (ProductOfferId.CursorPage I))
    (pages2 : List (ProductOfferId.CursorPage J))
    (pages3 : List (List K)) :
    (ProductOfferId.wfCursorSeries limit pages1 →
        ProductOfferId.get_all_products limit pages1 []
          = (pages1.map ProductOfferId.CursorPage.items).flatten)
    ∧ (ProductOfferId.wfCursorSeries limit pages2 →
        OzonApiService.get_all_products limit pages2 []
          = (pages2.map ProductOfferId.CursorPage.items).flatten)
    ∧ (FboOborachivaemost.wfOffsetSeries pages3 →
        (FboOborachivaemost.get_all_ozon_data 3
            (pages3.map FboOborachivaemost.OzonResponse.success)
            0 0 [] []).1
          = FboOborachivaemost.RunOutcome.ok pages3.flatten) := by
  refine ⟨fun h => ?_, fun h => ?_, fun h => ?_⟩
  · simpa using get_all_products_wf limit pages1 [] h
  · simpa using ozonApiService_get_all_products_wf limit pages2 [] h
  · simpa using get_all_ozon_data_wf 3 pages3 0 0 [] [] h

/-- Witness for C1: a two-page cursor series and a one-page offset series. -/
theorem c1_fetch_all_concatenation_witness :
    ProductOfferId.get_all_products 2
        [⟨[1, 2], "t"⟩, ⟨[3], ""⟩] []
      = (([⟨[1, 2], "t"⟩, ⟨[3], ""⟩] :
            List (ProductOfferId.CursorPage Nat)).map
          ProductOfferId.CursorPage.items).flatten
    ∧ OzonApiService.get_all_products 2
        [⟨[1, 2], "t"⟩, ⟨[3], ""⟩] []
      = (([⟨[1, 2], "t"⟩, ⟨[3], ""⟩] :
            List (ProductOfferId.CursorPage Nat)).map
          ProductOfferId.CursorPage.items).flatten
    ∧ (FboOborachivaemost.get_all_ozon_data 3
          (([[9]] : List (List Nat)).map
            FboOborachivaemost.OzonResponse.success) 0 0 [] []).1
      = FboOborachivaemost.RunOutcome.ok ([[9]] : List (List Nat)).flatten := by
  have h := c1_fetch_all_concatenation (I := Nat) (J := Nat) (K := Nat) 2
    [⟨[1, 2], "t"⟩, ⟨[3], ""⟩] [⟨[1, 2], "t"⟩, ⟨[3], ""⟩] [[9]]
  exact ⟨h.1 ⟨by norm_num, by decide, Or.inr rfl⟩,
    h.2.1 ⟨by norm_num, by decide, Or.inr rfl⟩,
    h.2.2 (show ([9] : List Nat).length < 1000 by norm_num)⟩

/-- C7: on the read side of `005.FBO_Oborachivaemost.py`, (a) every run
performs at most 3 retries, each marked by its fixed 60-second sleep;
(b) when the run re-raises, at least 4 requests failed and exactly 3
60-second retry sleeps happened before the error surfaced; (c) when at most
3 requests fail, the run does not raise and its outcome — accumulated items
and final state — is exactly that of the same series with the failed
responses deleted: a retried iteration does not advance the offset, so
retries never skip or duplicate items. -/
theorem c7_bounded_retry_with_fixed_sleep {I : Type}
    (s t : List (FboOborachivaemost.OzonResponse I)) :
    ((FboOborachivaemost.get_all_ozon_data 3 s 0 0 [] []).2.countP
        FboOborachivaemost.isRetrySleep ≤ 3)
    ∧ ((FboOborachivaemost.get_all_ozon_data 3 s 0 0 [] []).1
          = FboOborachivaemost.RunOutcome.raised →
        4 ≤ FboOborachivaemost.countFailures s
          ∧ (FboOborachivaemost.get_all_ozon_data 3 s 0 0 [] []).2.countP
              FboOborachivaemost.isRetrySleep = 3)
    ∧ (FboOborachivaemost.countFailures t ≤ 3 →
        (FboOborachivaemost.get_all_ozon_data 3 t 0 0 [] []).1
            ≠ FboOborachivaemost.RunOutcome.raised
          ∧ (FboOborachivaemost.get_all_ozon_data 3 t 0 0 [] []).1
              = (FboOborachivaemost.get_all_ozon_data 3
                  (t.filter FboOborachivaemost.OzonResponse.isSuccess)
                  0 0 [] []).1) := by
  refine ⟨?_, fun h => ?_, fun h => ?_⟩
  · simpa using retry_sleep_bound 3 s 0 0 [] [] (by omega)
  · have hr := raised_after_retries 3 s 0 0 [] [] (by omega) h
    exact ⟨by have := hr.1; omega, by simpa using hr.2⟩
  · have hf := failures_are_noops 3 t 0 0 0 [] [] [] (by omega)
    exact ⟨hf.2, hf.1⟩

/-- Witness for C7: a series of four failures raises after three retry
sleeps; a series with one failure succeeds as if the failure never
happened. -/
theorem c7_bounded_retry_with_fixed_sleep_witness :
    (4 ≤ FboOborachivaemost.countFailures
        ([.failure, .failure, .failure, .failure] :
          List (FboOborachivaemost.OzonResponse Nat))
      ∧ (FboOborachivaemost.get_all_ozon_data 3
          ([.failure, .failure, .failure, .failure] :
            List (FboOborachivaemost.OzonResponse Nat)) 0 0 [] []).2.countP
          FboOborachivaemost.isRetrySleep = 3)
    ∧ ((FboOborachivaemost.get_all_ozon_data 3
          ([.failure, .success [5]] :
            List (FboOborachivaemost.OzonResponse Nat)) 0 0 [] []).1
        ≠ FboOborachivaemost.RunOutcome.raised
      ∧ (FboOborachivaemost.get_all_ozon_data 3
          ([.failure, .success [5]] :
            List (FboOborachivaemost.OzonResponse Nat)) 0 0 [] []).1
        = (FboOborachivaemost.get_all_ozon_data 3
            (([.failure, .success [5]] :
              List (FboOborachivaemost.OzonResponse Nat)).filter
              FboOborachivaemost.OzonResponse.isSuccess) 0 0 [] []).1) :=
  ⟨(c7_bounded_retry_with_fixed_sleep
      [.failure, .failure, .failure, .failure]
      [.failure, .success [5]]).2.1 (by decide),
   (c7_bounded_retry_with_fixed_sleep
      ([.failure, .failure, .failure, .failure] :
        List (FboOborachivaemost.OzonResponse Nat))
      [.failure, .success [5]]).2.2 (by decide)⟩

/-- C2: in every alignment of the codebase the output row sequence has the
same length and the same order as the input key sequence: row `i` of the
output is exactly the row the same pipeline would produce for key `i` alone,
independent of the other keys, of fetch order, and of duplicates in the
remote data — for `prepare_data_for_sheet` of
`test_scripts/013.Price_logistic.py`, `build_export_rows` of
`008.FBO_Upravlenie_stocks.py` applied to the non-blank SKU column, and
`update_google_sheet` of `006.Stock_FBO_FBS.py`. -/
theorem c2_alignment_length_order
    (data : List (ℤ × PriceLogistic.PriceItem)) (pids : List ℤ) (dq1 : ℚ)
    (col8 : List String) (items8 : List UpravlenieStocks.Item)
    (items6 : List StockFboFbs.StockItem) (pids6 : List ℤ) :
    ((PriceLogistic.prepare_data_for_sheet data pids dq1).length
        = pids.length
      ∧ ∀ (i : Nat) (k : ℤ), pids[i]? = some k →
          (PriceLogistic.prepare_data_for_sheet data pids dq1)[i]?
            = (PriceLogistic.prepare_data_for_sheet data [k] dq1)[0]?)
    ∧ ((UpravlenieStocks.build_export_rows
          (UpravlenieStocks.get_sku_list_from_sheet col8) items8).length
        = (UpravlenieStocks.get_sku_list_from_sheet col8).length
      ∧ ∀ (i : Nat) (k : String),
          (UpravlenieStocks.get_sku_list_from_sheet col8)[i]? = some k →
          (UpravlenieStocks.build_export_rows
              (UpravlenieStocks.get_sku_list_from_sheet col8) items8)[i]?
            = (UpravlenieStocks.build_export_rows [k] items8)[0]?)
    ∧ (((StockFboFbs.update_google_sheet items6 pids6).1.length
          = pids6.length
        ∧ (StockFboFbs.update_google_sheet items6 pids6).2.length
          = pids6.length)
      ∧ ∀ (i : Nat) (k : ℤ), pids6[i]? = some k →
          ((StockFboFbs.update_google_sheet items6 pids6).1[i]?
              = (StockFboFbs.update_google_sheet items6 [k]).1[0]?
            ∧ (StockFboFbs.update_google_sheet items6 pids6).2[i]?
              = (StockFboFbs.update_google_sheet items6 [k]).2[0]?)) := by
  refine ⟨⟨?_, ?_⟩, ⟨?_, ?_⟩, ⟨⟨?_, ?_⟩, ?_⟩⟩
  · simp [PriceLogistic.prepare_data_for_sheet]
  · intro i k h
    simp [PriceLogistic.prepare_data_for_sheet, List.getElem?_map, h]
  · simp [UpravlenieStocks.build_export_rows]
  · intro i k h
    simp [UpravlenieStocks.build_export_rows, List.getElem?_map, h]
  · simp [StockFboFbs.update_google_sheet]
  · simp [StockFboFbs.update_google_sheet]
  · intro i k h
    constructor <;>
      simp [StockFboFbs.update_google_sheet, List.getElem?_map, h]

/-- Witness for C2 at one-key inputs. -/
theorem c2_alignment_length_order_witness :
    (PriceLogistic.prepare_data_for_sheet [] [1] 0)[0]?
        = (PriceLogistic.prepare_data_for_sheet [] [1] 0)[0]?
    ∧ (UpravlenieStocks.build_export_rows
          (UpravlenieStocks.get_sku_list_from_sheet ["", "", "", "", "S"])
          [])[0]?
        = (UpravlenieStocks.build_export_rows ["S"] [])[0]?
    ∧ ((StockFboFbs.update_google_sheet [] [7]).1[0]?
        = (StockFboFbs.update_google_sheet [] [7]).1[0]?) := by
  have h := c2_alignment_length_order [] [1] 0 ["", "", "", "", "S"] [] [] [7]
  exact ⟨h.1.2 0 1 rfl, h.2.1.2 0 "S" (by decide), (h.2.2.2 0 7 rfl).1⟩

/-- C3 counterexample: the claim that every alignment resolves duplicate
keys last-write-wins fails at `005.FBO_Oborachivaemost.py`, whose
`update_google_sheets` selects the FIRST item whose `offer_id` matches:
with two distinct items sharing `offer_id` `"A"`, the selected item is the
first, not the last. -/
theorem c3_counterexample_first_match_at_005 :
    FboOborachivaemost.pick_item
        [FboOborachivaemost.turnA1, FboOborachivaemost.turnA2] "A"
      = some FboOborachivaemost.turnA1
    ∧ lastMatch (fun it => it.offer_id == some "A")
        [FboOborachivaemost.turnA1, FboOborachivaemost.turnA2]
      = some FboOborachivaemost.turnA2
    ∧ FboOborachivaemost.turnA1 ≠ FboOborachivaemost.turnA2 := by
  decide

/-- C3 amended: the duplicate-resolution policy is fixed per script but is
NOT last-write-wins everywhere: `get_ozon_prices` of
`test_scripts/013.Price_logistic.py` maps each `product_id` to the LAST
fetched matching item (later pages overwrite earlier ones);
`update_google_sheets` of `005.FBO_Oborachivaemost.py` selects the FIRST
matching item; `build_export_rows` of `008.FBO_Upravlenie_stocks.py` keeps
the FIRST item per SKU as the representative record (only its returns sum
aggregates all duplicates). -/
theorem c3_amended_duplicate_policy_per_script :
    (∀ (rs : List (List (Option PriceLogistic.PriceItem)))
       (pre post : List (Option PriceLogistic.PriceItem))
       (item : PriceLogistic.PriceItem) (pid : ℤ),
       rs.flatten = pre ++ some item :: post →
       item.product_id = some pid →
       (∀ o ∈ post, ∀ it2 : PriceLogistic.PriceItem,
          o = some it2 → it2.product_id ≠ some pid) →
       lookupKey (PriceLogistic.get_ozon_prices rs) pid = some item)
    ∧ (∀ (pre post : List FboOborachivaemost.TurnItem)
         (it : FboOborachivaemost.TurnItem) (oid : String),
         it.offer_id = some oid →
         (∀ x ∈ pre, x.offer_id ≠ some oid) →
         FboOborachivaemost.pick_item (pre ++ it :: post) oid = some it)
    ∧ (∀ (pre post : List UpravlenieStocks.Item)
         (it : UpravlenieStocks.Item) (s : String),
         it.sku = some s → s ≠ "" →
         (∀ x ∈ pre, x.sku ≠ some s) →
         lookupKey (UpravlenieStocks.build_maps (pre ++ it :: post)).1 s
           = some it) :=
  ⟨get_ozon_prices_last_wins, pick_item_first_wins,
   build_maps_rep_first_wins⟩

/-- Witness for the amended C3: concrete duplicate data for each script. -/
theorem c3_amended_duplicate_policy_per_script_witness :
    lookupKey (PriceLogistic.get_ozon_prices
        [[some PriceLogistic.priceItemA, some PriceLogistic.priceItemB]]) 1
      = some PriceLogistic.priceItemB
    ∧ FboOborachivaemost.pick_item
        ([] ++ FboOborachivaemost.turnA1 :: [FboOborachivaemost.turnA2]) "A"
      = some FboOborachivaemost.turnA1
    ∧ lookupKey (UpravlenieStocks.build_maps
        ([] ++ UpravlenieStocks.witItem :: [])).1 "S"
      = some UpravlenieStocks.witItem := by
  refine ⟨?_, ?_, ?_⟩
  · exact c3_amended_duplicate_policy_per_script.1
      [[some PriceLogistic.priceItemA, some PriceLogistic.priceItemB]]
      [some PriceLogistic.priceItemA] [] PriceLogistic.priceItemB 1
      (by decide) rfl (by intro o ho it2 h1 h2; simp at ho)
  · exact c3_amended_duplicate_policy_per_script.2.1 []
      [FboOborachivaemost.turnA2] FboOborachivaemost.turnA1 "A" rfl
      (by intro x hx; simp at hx)
  · exact c3_amended_duplicate_policy_per_script.2.2 [] []
      UpravlenieStocks.witItem "S" rfl (by decide)
      (by intro x hx; simp at hx)

/-- C4: at the failing input — a `product_id` absent from the fetched
data — `prepare_data_for_sheet` of `test_scripts/013.Price_logistic.py`
emits its default row `[''] * 27` exactly (line 169), but that default has
27 cells while a row projected from a matched item has only 24 cells (and
the script's write range `ET5:FQ...` spans exactly 24 columns): the default
row does NOT supply one value per output column. -/
theorem c4_default_row_has_wrong_width :
    (PriceLogistic.prepare_data_for_sheet [] [1] 0)[0]?
      = some (List.replicate 27 (Cell.str ""))
    ∧ ((PriceLogistic.prepare_data_for_sheet
          [(1, PriceLogistic.emptyPriceItem)] [1] 0)[0]?).map List.length
      = some 24
    ∧ 27 ≠ 24 := by
  refine ⟨rfl, ?_, by decide⟩
  rfl

section RatEval

attribute [local semireducible] Rat.mul Rat.add Rat.sub Rat.inv

/-- C6: the projector of `008.FBO_Upravlenie_stocks.py` encodes the
zero-as-blank policy per column, not globally: an item whose
returns-to-seller count is 0 yields an empty AF cell, while an item whose
days-without-sales is 0 yields `"0"` in the AD cell; the AI rate is rounded
to two decimal places, but a value that rounds to zero is emitted as `"0"`
(never `"0.00"`), and a non-zero value such as 2.47 is emitted with two
decimals as `"2.47"`. -/
theorem c6_zero_as_blank_per_column (it : UpravlenieStocks.Item)
    (s : String) (h1 : it.sku = some s) (h2 : s ≠ "") :
    (it.return_to_seller_stock_count = some 0 →
        cellAt (UpravlenieStocks.build_export_rows [s] [it]) 0 2 = some "")
    ∧ (it.days_without_sales = some 0 →
        cellAt (UpravlenieStocks.build_export_rows [s] [it]) 0 0 = some "0")
    ∧ (∀ a : ℚ, it.ads = some a → UpravlenieStocks.round2 a = 0 →
        cellAt (UpravlenieStocks.build_export_rows [s] [it]) 0 5 = some "0")
    ∧ cellAt (UpravlenieStocks.build_export_rows ["S"]
        [UpravlenieStocks.adsItem247]) 0 5 = some "2.47" := by
  refine ⟨fun hr => ?_, fun hd => ?_, fun a ha hz => ?_, by decide⟩
  · simp [UpravlenieStocks.build_export_rows, UpravlenieStocks.build_maps,
      UpravlenieStocks.build_maps_step, UpravlenieStocks.export_row, cellAt,
      h1, h2, hr, lookupKey, pyInsert,
      UpravlenieStocks.to_sheet_cell_blank_if_zero]
  · simp [UpravlenieStocks.build_export_rows, UpravlenieStocks.build_maps,
      UpravlenieStocks.build_maps_step, UpravlenieStocks.export_row, cellAt,
      h1, h2, hd, lookupKey, pyInsert, UpravlenieStocks.to_sheet_cell_int]
    decide
  · simp [UpravlenieStocks.build_export_rows, UpravlenieStocks.build_maps,
      UpravlenieStocks.build_maps_step, UpravlenieStocks.export_row, cellAt,
      h1, h2, ha, hz, lookupKey, pyInsert]

/-- Witness for C6 at an item with zero returns, zero days without sales,
and ADS 1/250 (whose two-decimal rounding is zero). -/
theorem c6_zero_as_blank_per_column_witness :
    cellAt (UpravlenieStocks.build_export_rows ["S"]
        [UpravlenieStocks.witItem]) 0 2 = some ""
    ∧ cellAt (UpravlenieStocks.build_export_rows ["S"]
        [UpravlenieStocks.witItem]) 0 0 = some "0"
    ∧ cellAt (UpravlenieStocks.build_export_rows ["S"]
        [UpravlenieStocks.witItem]) 0 5 = some "0" := by
  have h := c6_zero_as_blank_per_column UpravlenieStocks.witItem "S" rfl
    (by decide)
  exact ⟨h.1 rfl, h.2.1 rfl, h.2.2.1 (1 / 250) rfl (by decide)⟩

end RatEval

/-- C8 counterexample: the claim that every credential reader raises on
fewer than four non-blank lines, counting blank lines out, fails:
`read_api_config` of `014.Analytics_base.py` accepts a four-line file whose
second line is blank (three non-blank lines), and `read_api_credentials` of
`006.Stock_FBO_FBS.py` accepts a file of four blank lines. -/
theorem c8_counterexample_blank_lines_counted :
    nonBlankCount ["id", "", "key", "sheet"] = 3
    ∧ exceptOk (AnalyticsBase.read_api_config ["id", "", "key", "sheet"])
        = true
    ∧ nonBlankCount ["", "", "", ""] = 0
    ∧ (StockFboFbs.read_api_credentials ["", "", "", ""]).isSome = true := by
  decide

/-- C8 amended: the readers of `001.Product_offer_id.py` and
`test_scripts/013.Price_logistic.py` succeed exactly when the file has at
least four non-blank lines (blank lines excluded, error raised otherwise);
but `read_api_config` of `014.Analytics_base.py` counts physical lines,
blank or not, and `read_api_credentials` of `006.Stock_FBO_FBS.py` performs
no count check at all, failing only with an `IndexError` when the file has
fewer than four physical lines. -/
theorem c8_amended_reader_validation (ls : List String) :
    (exceptOk (ProductOfferId.read_api_credentials ls) = true
        ↔ 4 ≤ nonBlankCount ls)
    ∧ (exceptOk (PriceLogistic.read_api_credentials ls) = true
        ↔ 4 ≤ nonBlankCount ls)
    ∧ (exceptOk (AnalyticsBase.read_api_config ls) = true ↔ 4 ≤ ls.length)
    ∧ ((StockFboFbs.read_api_credentials ls).isSome = true
        ↔ 4 ≤ ls.length) := by
  have key1 : ∀ fl : List String,
      exceptOk ((match fl with
        | client_id :: api_key :: spreadsheet_id :: sheet_name :: _ =>
            Except.ok (api_key, client_id, spreadsheet_id, sheet_name)
        | _ => Except.error "must contain 4 lines") :
          Except String (String × String × String × String)) = true
        ↔ 4 ≤ fl.length := by
    intro fl
    rcases fl with _ | ⟨a, _ | ⟨b, _ | ⟨c, _ | ⟨d, rest⟩⟩⟩⟩ <;>
      simp [exceptOk]
  have key2 : ∀ fl : List String,
      exceptOk ((match fl with
        | l0 :: l1 :: l2 :: l3 :: _ => Except.ok (l0, l1, l2, l3)
        | _ => Except.error "API file must contain 4 lines") :
          Except String (String × String × String × String)) = true
        ↔ 4 ≤ fl.length := by
    intro fl
    rcases fl with _ | ⟨a, _ | ⟨b, _ | ⟨c, _ | ⟨d, rest⟩⟩⟩⟩ <;>
      simp [exceptOk]
  have key3 : ∀ fl : List String,
      exceptOk ((match fl with
        | l0 :: l1 :: l2 :: l3 :: _ => Except.ok ⟨l0, l1, l2, l3⟩
        | _ => Except.error "File (1)API.txt must contain 4 lines") :
          Except String AnalyticsBase.Config) = true
        ↔ 4 ≤ fl.length := by
    intro fl
    rcases fl with _ | ⟨a, _ | ⟨b, _ | ⟨c, _ | ⟨d, rest⟩⟩⟩⟩ <;>
      simp [exceptOk]
  have key4 : ∀ fl : List String,
      ((match fl with
        | l0 :: l1 :: l2 :: l3 :: _ =>
            some (pyStrip l0, pyStrip l1, pyStrip l2, pyStrip l3)
        | _ => none) :
          Option (String × String × String × String)).isSome = true
        ↔ 4 ≤ fl.length := by
    intro fl
    rcases fl with _ | ⟨a, _ | ⟨b, _ | ⟨c, _ | ⟨d, rest⟩⟩⟩⟩ <;>
      simp
  refine ⟨key1 _, key2 _, ?_, key4 _⟩
  rw [← List.length_map ls pyStrip]
  exact key3 _

/-- C9: in `014.Analytics_base.py`, one row-update is emitted per distinct
raw non-blank SKU cell — the number of updates equals the number of
distinct non-blank key cells, not the number of non-blank cells — all
targeted rows are distinct, and row `i + 5` receives an update exactly when
sheet index `i` holds a non-blank cell whose value does not occur again
later in the column: duplicates are written once, at the row of the last
occurrence, and rows holding earlier occurrences receive no write. -/
theorem c9_one_update_per_distinct_sku (sku_col : List String)
    (data : List (String × AnalyticsBase.QueryItem)) :
    ((AnalyticsBase.updates sku_col data).length
        = ((sku_col.filter (fun s => pyStrip s ≠ "")).dedup).length)
    ∧ (((AnalyticsBase.updates sku_col data).map
          AnalyticsBase.Update.targetRow).Nodup)
    ∧ (∀ (i : Nat) (s : String), sku_col[i]? = some s →
        ((i + 5) ∈ (AnalyticsBase.updates sku_col data).map
            AnalyticsBase.Update.targetRow
          ↔ (pyStrip s ≠ "" ∧ ∀ j, i < j → sku_col[j]? ≠ some s))) := by
  have hmapsnd : (AnalyticsBase.updates sku_col data).map
      AnalyticsBase.Update.targetRow
      = (AnalyticsBase.sku_to_row sku_col).map Prod.snd := by
    rw [AnalyticsBase.updates, List.map_map]
    exact List.map_congr_left (fun p _ => rfl)
  refine ⟨?_, ?_, ?_⟩
  · rw [AnalyticsBase.updates, List.length_map, sku_to_row_length]
  · rw [hmapsnd]
    have hkeys := sku_to_row_nodup sku_col
    have hfn : ∀ p ∈ AnalyticsBase.sku_to_row sku_col,
        Prod.fst p = (fun r => sku_col.getD (r - 5) "") (Prod.snd p) := by
      intro p hp
      obtain ⟨s, r⟩ := p
      obtain ⟨hs, hlast, hr5⟩ := (sku_to_row_mem_iff sku_col s r).mp hp
      obtain ⟨hlt, hget, -⟩ := lastIndexOf_spec s sku_col (r - 5) hlast
      show s = sku_col.getD (r - 5) ""
      rw [List.getD_eq_getElem?_getD, hget]
      rfl
    have hcomp : (AnalyticsBase.sku_to_row sku_col).map Prod.fst
        = ((AnalyticsBase.sku_to_row sku_col).map Prod.snd).map
            (fun r => sku_col.getD (r - 5) "") := by
      rw [List.map_map]
      exact List.map_congr_left hfn
    rw [hcomp] at hkeys
    exact List.Nodup.of_map _ hkeys
  · intro i s hcol
    rw [hmapsnd]
    constructor
    · intro hmem
      obtain ⟨p, hp, hpr⟩ := List.mem_map.mp hmem
      obtain ⟨s', r⟩ := p
      obtain ⟨hs', hlast, hr5⟩ := (sku_to_row_mem_iff sku_col s' r).mp hp
      have hri : r - 5 = i := by simp only at hpr; omega
      obtain ⟨hlt, hget, hafter⟩ := lastIndexOf_spec s' sku_col (r - 5) hlast
      rw [hri] at hget hafter
      have hss : s' = s := by
        rw [hcol] at hget
        exact ((Option.some.injEq _ _).mp hget).symm
      subst hss
      exact ⟨hs', fun j hj => hafter j hj⟩
    · rintro ⟨hs, hlast⟩
      have hidx : lastIndexOf s sku_col = some i :=
        lastIndexOf_last_occ s sku_col i hcol hlast
      have hmem : (s, i + 5) ∈ AnalyticsBase.sku_to_row sku_col := by
        apply (sku_to_row_mem_iff sku_col s (i + 5)).mpr
        exact ⟨hs, by simpa using hidx, by omega⟩
      exact List.mem_map.mpr ⟨(s, i + 5), hmem, rfl⟩

/-- Witness for C9: with the duplicated column `["A", "A"]`, the last
occurrence (sheet row 6) receives the single update. -/
theorem c9_one_update_per_distinct_sku_witness :
    (1 + 5) ∈ (AnalyticsBase.updates ["A", "A"] []).map
      AnalyticsBase.Update.targetRow := by
  have h := (c9_one_update_per_distinct_sku ["A", "A"] []).2.2 1 "A" rfl
  apply h.mpr
  refine ⟨by decide, ?_⟩
  intro j hj
  have hnone : (["A", "A"] : List String)[j]? = none := by
    apply List.getElem?_eq_none
    simp only [List.length_cons, List.length_nil]
    omega
  rw [hnone]
  simp

/-- C10: in `006.Stock_FBO_FBS.py`, for every `product_id` of the input
key list the emitted FBO cell (resp. FBS cell) equals the sum of the
`present` fields over the stock entries of type `'fbo'` (resp. `'fbs'`) of
that product's item — the last fetched item carrying its stringified id —
and a `product_id` matching no fetched item yields the numeric `0` in both
columns, not a blank cell. -/
theorem c10_stock_sums_with_zero_default
    (items : List StockFboFbs.StockItem) (pids : List ℤ) (i : Nat) (pid : ℤ)
    (h : pids[i]? = some pid) :
    ((StockFboFbs.update_google_sheet items pids).1[i]?
        = some [sumPresent "fbo"
            (((lastMatch (fun it => toString it.product_id == toString pid)
                items).map StockFboFbs.StockItem.stocks).getD [])]
      ∧ (StockFboFbs.update_google_sheet items pids).2[i]?
        = some [sumPresent "fbs"
            (((lastMatch (fun it => toString it.product_id == toString pid)
                items).map StockFboFbs.StockItem.stocks).getD [])])
    ∧ ((∀ it ∈ items, toString it.product_id ≠ toString pid) →
        (StockFboFbs.update_google_sheet items pids).1[i]? = some [0]
        ∧ (StockFboFbs.update_google_sheet items pids).2[i]? = some [0]) := by
  have h1 : (StockFboFbs.update_google_sheet items pids).1[i]?
      = some [(StockFboFbs.fbo_fbs_sums
          ((lookupKey (StockFboFbs.stock_dict items) (toString pid)).getD
            [])).1] := by
    simp [StockFboFbs.update_google_sheet, List.getElem?_map, h]
  have h2 : (StockFboFbs.update_google_sheet items pids).2[i]?
      = some [(StockFboFbs.fbo_fbs_sums
          ((lookupKey (StockFboFbs.stock_dict items) (toString pid)).getD
            [])).2] := by
    simp [StockFboFbs.update_google_sheet, List.getElem?_map, h]
  have hl := stock_dict_lookup items (toString pid)
  constructor
  · constructor
    · rw [h1, hl, fbo_fbs_sums_spec]
    · rw [h2, hl, fbo_fbs_sums_spec]
  · intro hnone
    have hnm : lastMatch
        (fun it => toString it.product_id == toString pid) items = none := by
      simp only [lastMatch]
      rw [List.find?_eq_none]
      intro x hx
      intro hpx
      exact hnone x (List.mem_reverse.mp hx) (by simpa using hpx)
    constructor
    · rw [h1, hl, hnm]
      rfl
    · rw [h2, hl, hnm]
      rfl

/-- Witness for C10: an empty item set yields the numeric 0 in both
columns. -/
theorem c10_stock_sums_with_zero_default_witness :
    (StockFboFbs.update_google_sheet [] [5]).1[0]? = some [0]
    ∧ (StockFboFbs.update_google_sheet [] [5]).2[0]? = some [0] :=
  (c10_stock_sums_with_zero_default [] [5] 0 5 rfl).2
    (fun it hit => absurd hit (List.not_mem_nil it))
